import Mathlib

/-!
Verification of the ui-chatter session/stream orchestration service.

This file gives a shallow embedding, in Lean 4, of the parts of the
`ui_chatter` Python service that the specification claims talk about:

* `StreamController` (stream_controller.py): stream registry with
  per-stream cancellation latch;
* `SessionStore` (session_store.py): the SQLite-backed session metadata
  store, modelled as a list of rows with the SQL statements translated to
  list operations (ISO timestamp string comparison is order-isomorphic to
  chronological comparison, so timestamps are modelled as integers);
* `SessionManager.create_session` (session_manager.py): the auto-resume
  decision, including the `settings.AUTO_RESUME_ENABLED` attribute access
  against the fields actually declared in config.py;
* `ClaudeAgentSDKBackend.handle_chat` (backends/claude_agent_sdk.py):
  one agent turn, translating the SDK message sequence into the
  multi-channel WebSocket event stream, with cooperative cancellation;
* the permission round-trip `_request_permission_from_ui`;
* `normalize_url_for_matching` (utils/url_utils.py) together with a
  faithful model of CPython `urllib.parse.urlparse` / `urlunparse`.

Python strings are modelled as `List Char` (`PyStr`); `None`-able values
as `Option`; raised exceptions as `Except PyExc`.  Suspension points
(the 60 s permission wait) are modelled by an explicit outcome oracle,
and the `asyncio.Event` cancellation latch by the index of the first
event-loop iteration at which the latch is observed set.
-/

set_option maxHeartbeats 1000000
set_option linter.unusedVariables false

namespace UIChatter

/-- Python strings, modelled as lists of characters. -/
abbrev PyStr := List Char

/-- Python exceptions raised by the modelled code. -/
inductive PyExc where
  | attributeError (attr : PyStr)
  | valueError (msg : PyStr)
  deriving Repr, DecidableEq

/-- Python truthiness for an optional string: `None` and `""` are falsy.
Models the idiom `x if x else None`. -/
def pyTruthyOpt (o : Option PyStr) : Option PyStr :=
  match o with
  | some s => if s = [] then none else some s
  | none => none

/-- Python truthiness test for an optional string (`if x and y:` chains). -/
def pyTruthy (o : Option PyStr) : Bool :=
  match o with
  | some s => ¬ s.isEmpty
  | none => false

/-- Lookup in a Python dict modelled as an association list. -/
def alistGet (l : List (PyStr × PyStr)) (k : PyStr) : Option PyStr :=
  match l with
  | [] => none
  | (k₀, v₀) :: rest => if k₀ = k then some v₀ else alistGet rest k

/-- Python dict assignment `d[k] = v`: overwrite the binding in place,
else append (dict keys are unique, so at most one binding exists). -/
def alistSet {α : Type} : List (PyStr × α) → PyStr → α → List (PyStr × α)
  | [], k, v => [(k, v)]
  | (k₀, v₀) :: rest, k, v =>
    if k₀ = k then (k, v) :: rest else (k₀, v₀) :: alistSet rest k v

/-- Python dict membership `k in d`. -/
def alistHas {α : Type} (l : List (PyStr × α)) (k : PyStr) : Bool :=
  l.any (fun p => p.1 = k)

/-- Python `d.pop(k, None)`: remove every binding of `k`. -/
def alistPop {α : Type} (l : List (PyStr × α)) (k : PyStr) : List (PyStr × α) :=
  l.filter (fun p => ¬ p.1 = k)

/-! ## StreamController (stream_controller.py)

State of a `StreamController` instance.  The `_streams` dict maps a
stream id to its `asyncio.Event` cancellation latch, modelled by the
boolean `is_set`; `_states` and `_timestamps` are the other two dicts.
`datetime.utcnow()` is passed in explicitly as an integer `now`. -/

structure StreamController where
  streams : List (PyStr × Bool)
  states : List (PyStr × PyStr)
  timestamps : List (PyStr × Int)
  deriving Repr, DecidableEq

/-- A fresh `StreamController()` with empty dicts. -/
def StreamController.empty : StreamController := ⟨[], [], []⟩

/-- Model of `StreamController.create_stream`: registers a fresh unset
cancel event, state `"streaming"` and a creation timestamp under
`stream_id` (plain dict assignment, overwriting any existing entry). -/
def create_stream (s : StreamController) (stream_id : PyStr) (now : Int) : StreamController :=
  { streams := alistSet s.streams stream_id false
    states := alistSet s.states stream_id "streaming".toList
    timestamps := alistSet s.timestamps stream_id now }

/-- Model of `StreamController.cancel_stream`: if `stream_id` is a key of
`_streams`, set its event, move the state to `"cancelling"` and return
`True`; otherwise return `False`. -/
def cancel_stream (s : StreamController) (stream_id : PyStr) : StreamController × Bool :=
  if alistHas s.streams stream_id then
    ({ streams := alistSet s.streams stream_id true
       states := alistSet s.states stream_id "cancelling".toList
       timestamps := s.timestamps }, true)
  else
    (s, false)

/-- Model of `StreamController.cleanup_stream`: pop the id from all three
dicts. -/
def cleanup_stream (s : StreamController) (stream_id : PyStr) : StreamController :=
  { streams := alistPop s.streams stream_id
    states := alistPop s.states stream_id
    timestamps := alistPop s.timestamps stream_id }

/-- Model of `StreamController.get_state`. -/
def get_state (s : StreamController) (stream_id : PyStr) : Option PyStr :=
  (s.states.find? (fun p => p.1 = stream_id)).map Prod.snd

/-- Model of `StreamController.is_cancelled`. -/
def is_cancelled (s : StreamController) (stream_id : PyStr) : Bool :=
  match s.streams.find? (fun p => p.1 = stream_id) with
  | some p => p.2
  | none => false

/-! ## SessionStore (session_store.py)

A row of the `sessions` table.  ISO-format timestamp strings produced by
`datetime.isoformat()` compare lexicographically exactly as the
underlying instants compare chronologically, so `created_at` and
`last_activity` are modelled as integers (minutes). -/

structure StoredSession where
  session_id : PyStr
  sdk_session_id : Option PyStr
  project_path : PyStr
  backend_type : PyStr
  permission_mode : Option PyStr
  status : PyStr
  title : PyStr
  created_at : Int
  last_activity : Int
  page_url : Option PyStr
  base_url : Option PyStr
  tab_id : Option PyStr
  deriving Repr, DecidableEq

/-- The table, in row order; `session_id` is the primary key. -/
abbrev SessionTable := List StoredSession

/-- Arguments of `SessionStore.save_session` (beyond the session id). -/
structure SaveSessionArgs where
  sdk_session_id : Option PyStr
  project_path : PyStr
  backend_type : PyStr
  permission_mode : Option PyStr
  created_at : Option Int
  status : PyStr
  page_url : Option PyStr
  base_url : Option PyStr
  tab_id : Option PyStr
  deriving Repr, DecidableEq

/-- Model of `SessionStore.save_session`: the
`INSERT .. ON CONFLICT(session_id) DO UPDATE` upsert.  On conflict the
update sets `sdk_session_id = COALESCE(excluded.sdk_session_id,
sessions.sdk_session_id)` and every other supplied column except
`created_at` (which is only written by the insert); `title` keeps its
column default on insert. -/
def save_session (rows : SessionTable) (session_id : PyStr) (a : SaveSessionArgs)
    (now : Int) : SessionTable :=
  if rows.any (fun r => r.session_id = session_id) then
    rows.map (fun r =>
      if r.session_id = session_id then
        { r with
          sdk_session_id := match a.sdk_session_id with
            | some v => some v
            | none => r.sdk_session_id
          project_path := a.project_path
          backend_type := a.backend_type
          permission_mode := a.permission_mode
          status := a.status
          last_activity := now
          page_url := a.page_url
          base_url := a.base_url
          tab_id := a.tab_id }
      else r)
  else
    rows ++ [{ session_id := session_id
               sdk_session_id := a.sdk_session_id
               project_path := a.project_path
               backend_type := a.backend_type
               permission_mode := a.permission_mode
               status := a.status
               title := "Untitled".toList
               created_at := a.created_at.getD now
               last_activity := now
               page_url := a.page_url
               base_url := a.base_url
               tab_id := a.tab_id }]

/-- Row filter of `SessionStore.has_other_active_tabs`: same `base_url`,
a different non-NULL `tab_id`, status `'active'`, `last_activity`
strictly after the cutoff, and a non-NULL `sdk_session_id` (SQL `NULL`
comparisons with `!=` and `=` are never satisfied). -/
def otherActiveTabRow (burl : PyStr) (current_tab_id : PyStr) (cutoff : Int)
    (r : StoredSession) : Bool :=
  decide (r.base_url = some burl) &&
  (match r.tab_id with
   | some t => ! decide (t = current_tab_id)
   | none => false) &&
  decide (r.status = "active".toList) &&
  decide (r.last_activity > cutoff) &&
  r.sdk_session_id.isSome

/-- Model of `SessionStore.has_other_active_tabs` with
`cutoff = now - max_age_minutes` (`datetime.now() - timedelta(...)`). -/
def has_other_active_tabs (rows : SessionTable) (burl : PyStr) (current_tab_id : PyStr)
    (now max_age_minutes : Int) : Bool :=
  rows.any (otherActiveTabRow burl current_tab_id (now - max_age_minutes))

/-- Row filter of `SessionStore.find_resumable_session`: same `base_url`,
status in `('active', 'inactive')`, `last_activity` strictly after the
cutoff, non-NULL `sdk_session_id`. -/
def resumableRow (burl : PyStr) (cutoff : Int) (r : StoredSession) : Bool :=
  decide (r.base_url = some burl) &&
  (decide (r.status = "active".toList) || decide (r.status = "inactive".toList)) &&
  decide (r.last_activity > cutoff) &&
  r.sdk_session_id.isSome

/-- Pick a row of maximal `last_activity` (the SQL
`ORDER BY last_activity DESC LIMIT 1`; ties are broken arbitrarily by
the engine, here by first position). -/
def maxByLastActivity (rows : SessionTable) : Option StoredSession :=
  rows.foldl (fun acc r =>
    match acc with
    | none => some r
    | some b => if r.last_activity > b.last_activity then some r else some b) none

/-- Model of `SessionStore.find_resumable_session` with
`cutoff = now - max_age_minutes`. -/
def find_resumable_session (rows : SessionTable) (burl : PyStr)
    (now max_age_minutes : Int) : Option StoredSession :=
  maxByLastActivity (rows.filter (resumableRow burl (now - max_age_minutes)))

/-! ## Settings (config.py) and SessionManager.create_session -/

/-- The field names declared by `Settings` in config.py.  Attribute
access on the pydantic `settings` instance raises `AttributeError` for
any name outside this list. -/
def configSettingsFields : List PyStr :=
  ["PROJECT_NAME".toList, "PROJECT_PATH".toList, "DEBUG".toList, "HOST".toList,
   "PORT".toList, "LOG_LEVEL".toList, "PERMISSION_MODE".toList,
   "MAX_SCREENSHOT_AGE_HOURS".toList, "MAX_SESSION_IDLE_MINUTES".toList,
   "ALLOWED_ORIGINS".toList, "MAX_CONNECTIONS".toList, "WORKER_COUNT".toList,
   "WS_PING_INTERVAL".toList, "WS_PING_TIMEOUT".toList, "WS_RECEIVE_TIMEOUT".toList,
   "WS_PROTOCOL_PING_INTERVAL".toList, "WS_PROTOCOL_PING_TIMEOUT".toList]

/-- Whether `settings.<name>` exists (pydantic models raise
`AttributeError` on undeclared attribute access). -/
def settingsHasAttr (name : PyStr) : Bool :=
  configSettingsFields.any (fun f => f = name)

/-- Outcome of `SessionManager.create_session` that the claims are
about: the `resume_session_id` handed to the new backend (`None`
means a fresh conversation) and the `resumed` flag. -/
structure CreateSessionOutcome where
  backend_resume_session_id : Option PyStr
  resumed : Bool
  deriving Repr, DecidableEq

/-- Model of the auto-resume decision in `SessionManager.create_session`
as shipped: the guard

`if auto_resume and settings.AUTO_RESUME_ENABLED and page_url and tab_id and self.session_store:`

evaluates `settings.AUTO_RESUME_ENABLED` as soon as `auto_resume` is
truthy, and config.py declares no `AUTO_RESUME_ENABLED` field, so the
lookup raises `AttributeError` before any store query happens.  The
(dead) hit branch conservatively behaves as a skipped guard. -/
def create_session_resume (store : Option SessionTable) (now : Int)
    (sdk_session_id page_url tab_id : Option PyStr) (auto_resume : Bool) :
    Except PyExc CreateSessionOutcome :=
  if auto_resume then
    if settingsHasAttr "AUTO_RESUME_ENABLED".toList then
      .ok { backend_resume_session_id := pyTruthyOpt sdk_session_id, resumed := false }
    else
      .error (.attributeError "AUTO_RESUME_ENABLED".toList)
  else
    .ok { backend_resume_session_id := pyTruthyOpt sdk_session_id, resumed := false }

/-- Modelled from the spec: config.py is missing the
`AUTO_RESUME_ENABLED` and `AUTO_RESUME_MAX_AGE_MINUTES` settings that
session_manager.py reads (spec section 4.5 and test_auto_resume.py
define the intended behaviour).  This is `create_session` with those
two settings supplied (`enabled`, `max_age_minutes`); everything after
the settings reads is translated from session_manager.py lines 114-157:
normalize the page URL, suppress resume when `has_other_active_tabs`,
otherwise adopt the `sdk_session_id` of `find_resumable_session`, and
pass `resume_session_id = sdk_session_id if sdk_session_id else None`
to the backend. -/
def create_session_resume_spec (store : Option SessionTable) (now : Int)
    (sdk_session_id page_url tab_id : Option PyStr) (auto_resume : Bool)
    (enabled : Bool) (max_age_minutes : Int)
    (normalize : PyStr → PyStr) : CreateSessionOutcome :=
  if auto_resume ∧ enabled ∧ pyTruthy page_url ∧ pyTruthy tab_id ∧ store.isSome then
    match store, page_url with
    | some rows, some purl =>
      let base_url := normalize purl
      if has_other_active_tabs rows base_url (tab_id.getD []) now max_age_minutes then
        { backend_resume_session_id := pyTruthyOpt sdk_session_id, resumed := false }
      else
        match find_resumable_session rows base_url now max_age_minutes with
        | some resumable =>
          { backend_resume_session_id := pyTruthyOpt resumable.sdk_session_id
            resumed := true }
        | none =>
          { backend_resume_session_id := pyTruthyOpt sdk_session_id, resumed := false }
    | _, _ => { backend_resume_session_id := pyTruthyOpt sdk_session_id, resumed := false }
  else
    { backend_resume_session_id := pyTruthyOpt sdk_session_id, resumed := false }

/-! ## ClaudeAgentSDKBackend.handle_chat (backends/claude_agent_sdk.py)

The SDK message stream consumed by one `handle_chat` turn, and the
multi-channel WebSocket events it yields.  Type names follow the
`type(msg).__name__` dispatch constants of the source. -/

/-- Content blocks of an SDK `AssistantMessage`.  `otherBlock` stands
for any block class the dispatch does not recognise (e.g.
`ThinkingBlock`). -/
inductive SDKBlock where
  | textBlock (text : PyStr)
  | toolUseBlock (id name : PyStr) (input : List (PyStr × PyStr))
  | otherBlock
  deriving Repr, DecidableEq

/-- Content of a `ToolResultMessage` (`str | list[ContentBlock] | None`
in the SDK). -/
inductive ToolResultContent where
  | strContent (s : PyStr)
  | blocksContent (blocks : List SDKBlock)
  deriving Repr, DecidableEq

/-- Messages yielded by the SDK `query` iterator, as dispatched by
`type(msg).__name__` in `handle_chat`.  `otherMessage` is any
unrecognised class (ignored by the loop). -/
inductive SDKMessage where
  | resultMessage (is_error : Bool) (subtype : PyStr)
  | assistantMessage (content : List SDKBlock)
  | toolResultMessage (tool_use_id : Option PyStr) (is_error : Bool)
      (content : Option ToolResultContent)
  | systemMessage (subtype : Option PyStr) (data_session_id : Option PyStr)
  | otherMessage
  deriving Repr, DecidableEq

/-- Multi-channel WebSocket events yielded by `handle_chat`. -/
inductive WsMessage where
  | streamControl (action : PyStr) (reason : Option PyStr) (tools_used : Option Nat)
  | responseChunk (content : PyStr) (done : Bool)
  | toolActivity (tool_id tool_name status : PyStr)
      (input_summary output_summary : Option PyStr)
  | errorMessage (code message : PyStr)
  | sessionEstablished (sdk_session_id : PyStr)
  deriving Repr, DecidableEq

/-- The `MAX_MESSAGE_LENGTH` constant (100 KB). -/
def MAX_MESSAGE_LENGTH : Nat := 100000

/-- The character of a decimal digit. -/
def pyDigitChar (d : Nat) : Char :=
  match d with
  | 0 => '0' | 1 => '1' | 2 => '2' | 3 => '3' | 4 => '4'
  | 5 => '5' | 6 => '6' | 7 => '7' | 8 => '8' | _ => '9'

/-- Little-endian decimal digits of a natural number (fuel-driven, with
fuel at least the number itself). -/
def decimalDigitsAux : Nat → Nat → List Char
  | 0, _ => []
  | fuel + 1, n =>
    if n = 0 then [] else pyDigitChar (n % 10) :: decimalDigitsAux fuel (n / 10)

/-- Python `str(n)` for a natural number. -/
def pyStrNat (n : Nat) : PyStr :=
  if n = 0 then ['0'] else (decimalDigitsAux n n).reverse

/-- The `ValueError` text raised by `_validate_message_length`. -/
def messageTooLongText (n : Nat) : PyStr :=
  "Message too long (".toList ++ pyStrNat n ++
    " chars). Maximum allowed: 100000 chars".toList

/-- Model of `ClaudeAgentSDKBackend._validate_message_length`. -/
def validate_message_length (message : PyStr) : Except PyExc Unit :=
  if message.length > MAX_MESSAGE_LENGTH then
    .error (.valueError (messageTooLongText message.length))
  else
    .ok ()

/-- Python `str.lower()` (per-character, as used on error strings). -/
def pyLower (s : PyStr) : PyStr := s.map Char.toLower

/-- Python substring test `needle in haystack`. -/
def pyIn (needle : PyStr) : PyStr → Bool
  | [] => needle.isEmpty
  | c :: rest => needle.isPrefixOf (c :: rest) || pyIn needle rest

/-- Model of `ClaudeAgentSDKBackend._classify_error`: keyword sniffing
on the lower-cased exception text. -/
def classify_error (error_str : PyStr) : PyStr :=
  if pyIn "auth".toList (pyLower error_str) || pyIn "credential".toList (pyLower error_str) then
    "auth_failed".toList
  else if pyIn "permission".toList (pyLower error_str) then
    "permission_denied".toList
  else if pyIn "rate".toList (pyLower error_str) || pyIn "limit".toList (pyLower error_str) then
    "rate_limit".toList
  else if pyIn "timeout".toList (pyLower error_str) then
    "timeout".toList
  else
    "internal".toList

/-- Model of `ClaudeAgentSDKBackend._get_error_message` for the codes an
exception can classify to (the `"internal"` entry interpolates
`str(error)`). -/
def get_error_message (code : PyStr) (error_str : PyStr) : PyStr :=
  if code = "auth_failed".toList then
    "Authentication failed. Please run 'claude login' in terminal to authenticate.".toList
  else if code = "permission_denied".toList then
    "Permission denied. Try switching to bypass mode in session settings.".toList
  else if code = "rate_limit".toList then
    "Rate limit exceeded. Please try again in a few moments.".toList
  else if code = "timeout".toList then
    "Request timed out. Please try again.".toList
  else if code = "internal".toList then
    "An unexpected error occurred: ".toList ++ error_str
  else if code = "execution_failed".toList then
    "Claude encountered an error while processing your request.".toList
  else error_str

/-- The error text of the `execution_failed` error event yielded when a
`ResultMessage` reports `is_error`. -/
def executionFailedText : PyStr :=
  ("Claude encountered an error while processing your request. " ++
   "This may be due to working directory permissions or tool execution issues.").toList

/-- Model of `ClaudeAgentSDKBackend._summarize_tool_input`. -/
def summarize_tool_input (tool_name : PyStr) (input : List (PyStr × PyStr)) : PyStr :=
  if tool_name = "Read".toList then
    "Reading ".toList ++ (alistGet input "file_path".toList).getD "file".toList
  else if tool_name = "Write".toList then
    "Writing ".toList ++ (alistGet input "file_path".toList).getD "file".toList
  else if tool_name = "Edit".toList then
    "Editing ".toList ++ (alistGet input "file_path".toList).getD "file".toList
  else if tool_name = "Bash".toList then
    let cmd := (alistGet input "command".toList).getD []
    "Running: ".toList ++ cmd.take 50 ++ (if cmd.length > 50 then "...".toList else [])
  else if tool_name = "Grep".toList then
    "Searching for \"".toList ++ (alistGet input "pattern".toList).getD [] ++ "\"".toList
  else if tool_name = "Glob".toList then
    "Finding files: ".toList ++ (alistGet input "pattern".toList).getD "*".toList
  else
    tool_name ++ " operation".toList

/-- Truncation of a text part to 100 characters in
`_summarize_tool_output`. -/
def truncate100 (s : PyStr) : PyStr :=
  if s.length > 100 then s.take 100 ++ "...".toList else s

/-- Model of `ClaudeAgentSDKBackend._summarize_tool_output`. -/
def summarize_tool_output (content : Option ToolResultContent) : Option PyStr :=
  match content with
  | none => none
  | some (.strContent s) => if s = [] then none else some (truncate100 s)
  | some (.blocksContent blocks) =>
    let parts := blocks.filterMap (fun b =>
      match b with
      | .textBlock t => some (truncate100 t)
      | _ => none)
    if parts = [] then none else some (List.intercalate " ".toList parts)

/-- The backend state that the `handle_chat` loop reads and writes:
whether an SDK session has been established
(`AgentBackend.has_established_session`). -/
structure BackendState where
  has_established_session : Bool
  deriving Repr, DecidableEq

/-- Whether the cancellation latch (`cancel_event.is_set()`) is observed
set at loop iteration `i`.  An `asyncio.Event` is a latch: once set it
stays set, so the schedule is the index of the first iteration whose
check observes it (`none` = never set during the turn). -/
def cancelSetAt (cancelFrom : Option Nat) (i : Nat) : Bool :=
  match cancelFrom with
  | some k => decide (k ≤ i)
  | none => false

/-- Events yielded for the blocks of one `AssistantMessage`, together
with the updated tool counter. -/
def processBlocks (tool_count : Nat) : List SDKBlock → List WsMessage × Nat
  | [] => ([], tool_count)
  | .textBlock t :: rest =>
    if t = [] then processBlocks tool_count rest
    else
      let (evs, tc) := processBlocks tool_count rest
      (.responseChunk t false :: evs, tc)
  | .toolUseBlock id name input :: rest =>
    if id = [] ∨ name = [] ∨ input = [] then processBlocks tool_count rest
    else
      let (evs, tc) := processBlocks (tool_count + 1) rest
      (.toolActivity id name "executing".toList
        (some (summarize_tool_input name input)) none :: evs, tc)
  | .otherBlock :: rest => processBlocks tool_count rest

/-- The main `async for msg in query(...)` loop of `handle_chat`:
before each received message the cancel latch is polled and, if set, a
single `cancelled` control event is yielded and the SDK stream is
abandoned; otherwise the message is dispatched on its class name.  A
successful `ResultMessage` yields the terminal `done` chunk and the
`completed` control event (and the loop keeps consuming); an error
`ResultMessage` yields one `execution_failed` error and returns. -/
def processMessages (cancelFrom : Option Nat) (i : Nat) (tool_count : Nat)
    (st : BackendState) : List SDKMessage → List WsMessage
  | [] => []
  | msg :: rest =>
    if cancelSetAt cancelFrom i then
      [.streamControl "cancelled".toList (some "user_request".toList) none]
    else
      match msg with
      | .resultMessage is_error subtype =>
        if is_error then
          [.errorMessage "execution_failed".toList executionFailedText]
        else
          .responseChunk [] true ::
          .streamControl "completed".toList none (some tool_count) ::
          processMessages cancelFrom (i + 1) tool_count st rest
      | .assistantMessage blocks =>
        let (evs, tc) := processBlocks tool_count blocks
        evs ++ processMessages cancelFrom (i + 1) tc st rest
      | .toolResultMessage tool_use_id is_error content =>
        .toolActivity (tool_use_id.getD "unknown".toList) []
          (if is_error then "failed".toList else "completed".toList)
          none (summarize_tool_output content) ::
        processMessages cancelFrom (i + 1) tool_count st rest
      | .systemMessage subtype data_session_id =>
        if subtype = some "init".toList then
          match data_session_id with
          | some sid =>
            if ¬ sid = [] ∧ ¬ st.has_established_session then
              .sessionEstablished sid ::
              processMessages cancelFrom (i + 1) tool_count
                { st with has_established_session := true } rest
            else
              processMessages cancelFrom (i + 1) tool_count st rest
          | none => processMessages cancelFrom (i + 1) tool_count st rest
        else
          processMessages cancelFrom (i + 1) tool_count st rest
      | .otherMessage => processMessages cancelFrom (i + 1) tool_count st rest

/-- Model of `ClaudeAgentSDKBackend.handle_chat` for one turn.  The
message length is validated before anything is yielded; a `ValueError`
propagates to the generic handler, which (with no response completed)
classifies it and yields a single error event.  Otherwise a `started`
control event is yielded and the SDK stream `events` is consumed. -/
def handle_chat (st : BackendState) (message : PyStr) (cancelFrom : Option Nat)
    (events : List SDKMessage) : List WsMessage :=
  match validate_message_length message with
  | .error (.valueError txt) =>
    let code := classify_error txt
    [.errorMessage code (get_error_message code txt)]
  | .error (.attributeError _) => []
  | .ok () =>
    .streamControl "started".toList none none ::
    processMessages cancelFrom 0 0 st events

/-- Whether an SDK message is a `ResultMessage`. -/
def isResultMessage : SDKMessage → Bool
  | .resultMessage _ _ => true
  | _ => false

/-- Whether an SDK message is a `ResultMessage` with `is_error` set. -/
def isErrorResultMessage : SDKMessage → Bool
  | .resultMessage e _ => e
  | _ => false

/-- Whether a yielded event is the `completed` stream-control event. -/
def isCompletedControl : WsMessage → Bool
  | .streamControl a _ _ => a = "completed".toList
  | _ => false

/-- Whether a yielded event is the `cancelled` stream-control event. -/
def isCancelledControl : WsMessage → Bool
  | .streamControl a _ _ => a = "cancelled".toList
  | _ => false

/-- Whether a yielded event is a `response_chunk` with `done=true`. -/
def isDoneChunk : WsMessage → Bool
  | .responseChunk _ d => d
  | _ => false

/-- Whether a yielded event is an error event with the given code. -/
def isErrorWithCode (code : PyStr) : WsMessage → Bool
  | .errorMessage c _ => c = code
  | _ => false

/-! ## Permission round-trip (backends/claude_agent_sdk.py)

`PermissionRequestManager` and `_request_permission_from_ui`.  The
await points (`ws_send_callback`, `asyncio.wait_for(event.wait(), 60)`)
are modelled by explicit outcome parameters: `send_error` is the
exception text if the WebSocket send raises, and `WaitOutcome` says
whether a resolution arrived within the 60-second window. -/

/-- The user response carried by a `permission_response` frame. -/
structure PermissionResponse where
  approved : Bool
  modified_input : Option (List (PyStr × PyStr))
  answers : List (PyStr × PyStr)
  reason : Option PyStr
  deriving Repr, DecidableEq

/-- One pending entry of `PermissionRequestManager._pending_requests`:
the `asyncio.Event` (modelled by its `is_set` boolean) and the stored
result. -/
structure PendingPermissionRequest where
  event_set : Bool
  result : Option PermissionResponse
  deriving Repr, DecidableEq

/-- The `_pending_requests` dict. -/
abbrev PermissionManager := List (PyStr × PendingPermissionRequest)

/-- Model of `PermissionRequestManager.create_request` (the fresh
`request_id` is the uuid4 value, passed in). -/
def create_request (m : PermissionManager) (request_id : PyStr) : PermissionManager :=
  alistSet m request_id { event_set := false, result := none }

/-- Model of `PermissionRequestManager.resolve_request`: store the
response and set the event, if the request is still pending; a no-op
otherwise. -/
def resolve_request (m : PermissionManager) (request_id : PyStr)
    (response : PermissionResponse) : PermissionManager :=
  if alistHas m request_id then
    m.map (fun p =>
      if p.1 = request_id then (p.1, { event_set := true, result := some response })
      else p)
  else m

/-- Model of `PermissionRequestManager.cleanup_request`. -/
def cleanup_request (m : PermissionManager) (request_id : PyStr) : PermissionManager :=
  alistPop m request_id

/-- The SDK permission decision (`PermissionResultAllow` /
`PermissionResultDeny`). -/
inductive PermissionResult where
  | allow (updated_input : List (PyStr × PyStr))
  | deny (message : PyStr)
  deriving Repr, DecidableEq

/-- The 60-second timeout used both in the `permission_request` frame
and in `asyncio.wait_for`. -/
def PERMISSION_TIMEOUT_SECONDS : Nat := 60

/-- The `permission_request` frame pushed to the UI. -/
structure PermissionRequestMsg where
  request_id : PyStr
  request_type : PyStr
  tool_name : PyStr
  timeout_seconds : Nat
  deriving Repr, DecidableEq

/-- Outcome of `asyncio.wait_for(event.wait(), timeout=60.0)`: either a
`permission_response` resolved the request within 60 seconds (via
`resolve_request`), or the wait timed out. -/
inductive WaitOutcome where
  | resolved (response : PermissionResponse)
  | timedOut
  deriving Repr, DecidableEq

/-- Python `result.get("modified_input") or input_data` (an empty dict
is falsy). -/
def pyOrDict (o : Option (List (PyStr × PyStr))) (dflt : List (PyStr × PyStr)) :
    List (PyStr × PyStr) :=
  match o with
  | some l => if l = [] then dflt else l
  | none => dflt

/-- Python `result.get("reason") or "User denied permission"`. -/
def pyOrStr (o : Option PyStr) (dflt : PyStr) : PyStr :=
  match o with
  | some s => if s = [] then dflt else s
  | none => dflt

/-- Model of `ClaudeAgentSDKBackend._request_permission_from_ui`.
Returns the decision, the final `_pending_requests` state, and the
`permission_request` frame if one was sent.  `ws_send_available` is
`self.ws_send_callback is not None`; `send_error` is the exception text
if the send raises. -/
def request_permission_from_ui (ws_send_available : Bool) (send_error : Option PyStr)
    (m : PermissionManager) (request_id : PyStr) (tool_name : PyStr)
    (input_data : List (PyStr × PyStr)) (outcome : WaitOutcome) :
    PermissionResult × PermissionManager × Option PermissionRequestMsg :=
  if ¬ ws_send_available then
    (.deny "No UI connection available".toList, m, none)
  else
    let m₁ := create_request m request_id
    let frame : PermissionRequestMsg :=
      { request_id := request_id
        request_type := "tool_approval".toList
        tool_name := tool_name
        timeout_seconds := PERMISSION_TIMEOUT_SECONDS }
    match send_error with
    | some e =>
      (.deny ("Connection lost: ".toList ++ e), cleanup_request m₁ request_id, none)
    | none =>
      match outcome with
      | .resolved response =>
        let m₂ := resolve_request m₁ request_id response
        let result := ((m₂.find? (fun p => p.1 = request_id)).map Prod.snd).bind
          PendingPermissionRequest.result
        let m₃ := cleanup_request m₂ request_id
        match result with
        | none => (.deny "No response received".toList, m₃, some frame)
        | some r =>
          if r.approved then
            (.allow (pyOrDict r.modified_input input_data), m₃, some frame)
          else
            (.deny (pyOrStr r.reason "User denied permission".toList), m₃, some frame)
      | .timedOut =>
        (.deny "Permission request timed out (60 seconds)".toList,
         cleanup_request m₁ request_id, some frame)

/-! ## URL normalization (utils/url_utils.py and urllib.parse)

`normalize_url_for_matching` calls CPython `urlparse` / `urlunparse`;
those are modelled faithfully from the CPython 3.11 source
(`urllib/parse.py`).  The two pieces of `urllib` behaviour that live
outside string processing — `ipaddress`-based validation of a bracketed
IPv6 host, and the NFKC check for non-ASCII netlocs — are parameters of
`UrllibEnv`; every theorem below holds for every such environment. -/

/-- Characters stripped from the left of the URL
(`_WHATWG_C0_CONTROL_OR_SPACE`: U+0000..U+0020). -/
def isC0ControlOrSpace (c : Char) : Bool := decide (c.toNat ≤ 32)

/-- The `_UNSAFE_URL_BYTES_TO_REMOVE` (tab, CR, LF), removed
everywhere. -/
def isUnsafeUrlByte (c : Char) : Bool := decide (c = '\t' ∨ c = '\r' ∨ c = '\n')

/-- The `lstrip` plus unsafe-byte removal which `urlsplit` applies
before parsing. -/
def stripPrep (url : PyStr) : PyStr :=
  (url.dropWhile isC0ControlOrSpace).filter (fun c => ! isUnsafeUrlByte c)

/-- The `scheme_chars` constant. -/
def schemeChars : PyStr :=
  "abcdefghijklmnopqrstuvwxyzABCDEFGHIJKLMNOPQRSTUVWXYZ0123456789+-.".toList

/-- Python `c.isascii() and c.isalpha()` for the first scheme
character. -/
def isAsciiAlpha (c : Char) : Bool :=
  decide (('a' ≤ c ∧ c ≤ 'z') ∨ ('A' ≤ c ∧ c ≤ 'Z'))

/-- Split a list at the first occurrence of `c` (the occurrence itself
is dropped): `some (before, after)`, or `none` if `c` does not occur.
Models `url.find(c)` / `url.split(c, 1)`. -/
def splitFirst (c : Char) : PyStr → Option (PyStr × PyStr)
  | [] => none
  | x :: xs =>
    if x = c then some ([], xs)
    else
      match splitFirst c xs with
      | some (a, b) => some (x :: a, b)
      | none => none

/-- Split a list at the last occurrence of `c`.  Models
`url.rfind(c)`. -/
def splitLast (c : Char) : PyStr → Option (PyStr × PyStr)
  | [] => none
  | x :: xs =>
    match splitLast c xs with
    | some (a, b) => some (x :: a, b)
    | none => if x = c then some ([], xs) else none

/-- The scheme detection of `urlsplit`: split at the first `':'` when
the prefix is a well-formed scheme (nonempty, leading ASCII letter, all
characters in `scheme_chars`); the scheme is lower-cased. -/
def splitScheme (url : PyStr) : PyStr × PyStr :=
  match splitFirst ':' url with
  | some (pre, post) =>
    if (! pre.isEmpty) && (match url.head? with | some c => isAsciiAlpha c | none => false) &&
        pre.all (fun c => schemeChars.contains c) then
      (pre.map Char.toLower, post)
    else ([], url)
  | none => ([], url)

/-- The delimiters at which `_splitnetloc` stops. -/
def isNetlocStopChar (c : Char) : Bool := decide (c = '/' ∨ c = '?' ∨ c = '#')

/-- External `urllib` behaviour that is not string processing: the
`ipaddress`-based `_check_bracketed_host`, and the NFKC validation that
`_checknetloc` performs on non-ASCII netlocs. -/
structure UrllibEnv where
  bracketedHostOk : PyStr → Bool
  nonAsciiNetlocOk : PyStr → Bool

/-- A concrete environment for evaluating on concrete URLs (none of the
concrete URLs in this file have bracketed or non-ASCII hosts, so the
choice is irrelevant there). -/
def strictUrllibEnv : UrllibEnv :=
  { bracketedHostOk := fun _ => false, nonAsciiNetlocOk := fun _ => false }

/-- The bracketed host `netloc.partition('[')[2].partition(']')[0]`. -/
def bracketedHostOf (netloc : PyStr) : PyStr :=
  (((splitFirst '[' netloc).map Prod.snd).getD []).takeWhile (fun c => ! decide (c = ']'))

/-- The bracket validation in `urlsplit`: unbalanced brackets raise
`Invalid IPv6 URL`; balanced brackets defer to
`_check_bracketed_host`. -/
def checkNetlocBrackets (env : UrllibEnv) (netloc : PyStr) : Except PyExc Unit :=
  if (netloc.contains '[' ∧ ¬ netloc.contains ']') ∨
     (netloc.contains ']' ∧ ¬ netloc.contains '[') then
    .error (.valueError "Invalid IPv6 URL".toList)
  else if netloc.contains '[' ∧ netloc.contains ']' then
    if env.bracketedHostOk (bracketedHostOf netloc) then .ok ()
    else .error (.valueError "Invalid bracketed host".toList)
  else .ok ()

/-- Model of `_checknetloc`: ASCII (or empty) netlocs pass; non-ASCII
netlocs are checked against NFKC normalization (deferred to the
environment). -/
def checknetloc (env : UrllibEnv) (netloc : PyStr) : Except PyExc Unit :=
  if netloc.isEmpty ∨ netloc.all (fun c => decide (c.toNat ≤ 127)) then .ok ()
  else if env.nonAsciiNetlocOk netloc then .ok ()
  else .error (.valueError "netloc contains invalid characters under NFKC normalization".toList)

/-- Result of `urlsplit`. -/
structure SplitResultM where
  scheme : PyStr
  netloc : PyStr
  path : PyStr
  query : PyStr
  fragment : PyStr
  deriving Repr, DecidableEq

/-- The `_splitnetloc` stage of `urlsplit`: when the remaining URL
starts with `//`, the netloc runs to the first of `/`, `?`, `#`. -/
def netlocSplit (url2 : PyStr) : PyStr × PyStr :=
  if url2.take 2 = ['/', '/'] then
    let rest := url2.drop 2
    (rest.takeWhile (fun c => ! isNetlocStopChar c),
     rest.dropWhile (fun c => ! isNetlocStopChar c))
  else ([], url2)

/-- The fragment split of `urlsplit` (`url.split('#', 1)` when `'#'` is
present). -/
def fragmentSplit (x : PyStr) : PyStr × PyStr :=
  match splitFirst '#' x with
  | some (a, b) => (a, b)
  | none => (x, [])

/-- The query split of `urlsplit`. -/
def querySplit (x : PyStr) : PyStr × PyStr :=
  match splitFirst '?' x with
  | some (a, b) => (a, b)
  | none => (x, [])

/-- The stages of `urlsplit` after scheme detection. -/
def urlsplitPostScheme (env : UrllibEnv) (scheme url2 : PyStr) :
    Except PyExc SplitResultM :=
  let nl := netlocSplit url2
  match checkNetlocBrackets env nl.1 with
  | .error e => .error e
  | .ok () =>
    let fs := fragmentSplit nl.2
    let qs := querySplit fs.1
    match checknetloc env nl.1 with
    | .error e => .error e
    | .ok () => .ok ⟨scheme, nl.1, qs.1, qs.2, fs.2⟩

/-- Model of CPython `urllib.parse.urlsplit` (with the default empty
scheme argument and `allow_fragments=True`). -/
def urlsplitM (env : UrllibEnv) (url0 : PyStr) : Except PyExc SplitResultM :=
  let sp := splitScheme (stripPrep url0)
  urlsplitPostScheme env sp.1 sp.2

/-- The `uses_params` scheme list of `urllib.parse`. -/
def uses_params : List PyStr :=
  [[], "ftp".toList, "hdl".toList, "prospero".toList, "http".toList, "imap".toList,
   "https".toList, "shttp".toList, "rtsp".toList, "rtsps".toList, "rtspu".toList,
   "sip".toList, "sips".toList, "mms".toList, "sftp".toList, "tel".toList]

/-- The `uses_netloc` scheme list of `urllib.parse`. -/
def uses_netloc : List PyStr :=
  [[], "ftp".toList, "http".toList, "gopher".toList, "nntp".toList, "telnet".toList,
   "imap".toList, "wais".toList, "file".toList, "mms".toList, "https".toList,
   "shttp".toList, "snews".toList, "prospero".toList, "rtsp".toList, "rtsps".toList,
   "rtspu".toList, "rsync".toList, "svn".toList, "svn+ssh".toList, "sftp".toList,
   "nfs".toList, "git".toList, "git+ssh".toList, "ws".toList, "wss".toList]

/-- Model of `_splitparams`: split parameters at the first `';'` of the
last path segment. -/
def splitparams (url : PyStr) : PyStr × PyStr :=
  match splitLast '/' url with
  | some (before, after) =>
    (match splitFirst ';' after with
     | some (a, b) => (before ++ '/' :: a, b)
     | none => (url, []))
  | none =>
    (match splitFirst ';' url with
     | some (a, b) => (a, b)
     | none => (url, []))

/-- Result of `urlparse`. -/
structure ParseResultM where
  scheme : PyStr
  netloc : PyStr
  path : PyStr
  params : PyStr
  query : PyStr
  fragment : PyStr
  deriving Repr, DecidableEq

/-- Model of CPython `urllib.parse.urlparse`. -/
def urlparseM (env : UrllibEnv) (url : PyStr) : Except PyExc ParseResultM :=
  match urlsplitM env url with
  | .error e => .error e
  | .ok r =>
    if uses_params.contains r.scheme ∧ r.path.contains ';' then
      let (p, params) := splitparams r.path
      .ok ⟨r.scheme, r.netloc, p, params, r.query, r.fragment⟩
    else
      .ok ⟨r.scheme, r.netloc, r.path, [], r.query, r.fragment⟩

/-- Model of CPython `urllib.parse.urlunsplit`. -/
def urlunsplitM (scheme netloc url query fragment : PyStr) : PyStr :=
  let url1 :=
    if netloc ≠ [] ∨ (scheme ≠ [] ∧ uses_netloc.contains scheme = true ∧
        url.take 2 ≠ ['/', '/']) then
      let u := if url ≠ [] ∧ url.head? ≠ some '/' then '/' :: url else url
      '/' :: '/' :: (netloc ++ u)
    else url
  let url2 := if scheme = [] then url1 else scheme ++ ':' :: url1
  let url3 := if query = [] then url2 else url2 ++ '?' :: query
  if fragment = [] then url3 else url3 ++ '#' :: fragment

/-- Model of CPython `urllib.parse.urlunparse`. -/
def urlunparseM (scheme netloc url params query fragment : PyStr) : PyStr :=
  urlunsplitM scheme netloc (if params = [] then url else url ++ ';' :: params)
    query fragment

/-- Python `path.rstrip('/')`. -/
def rstripSlash (s : PyStr) : PyStr :=
  (s.reverse.dropWhile (fun c => decide (c = '/'))).reverse

/-- Model of `normalize_url_for_matching` (utils/url_utils.py): empty
input maps to the empty string, otherwise parse and reassemble with
scheme forced to `https`, query/params/fragment dropped and the path
right-stripped of slashes. -/
def normalize_url_for_matching (env : UrllibEnv) (url : PyStr) : Except PyExc PyStr :=
  if url = [] then .ok []
  else
    match urlparseM env url with
    | .error e => .error e
    | .ok p =>
      .ok (urlunparseM "https".toList p.netloc
        (if p.path = [] then [] else rstripSlash p.path) [] [] [])

/-- The params stage of `urlparse` applied after `urlsplit`
(`urlparseM` with the scheme split already performed). -/
def urlparsePostScheme (env : UrllibEnv) (scheme url2 : PyStr) :
    Except PyExc ParseResultM :=
  match urlsplitPostScheme env scheme url2 with
  | .error e => .error e
  | .ok r =>
    if uses_params.contains r.scheme ∧ r.path.contains ';' then
      let (p, params) := splitparams r.path
      .ok ⟨r.scheme, r.netloc, p, params, r.query, r.fragment⟩
    else
      .ok ⟨r.scheme, r.netloc, r.path, [], r.query, r.fragment⟩

/-- The reassembly step of `normalize_url_for_matching` from a parse
result (forced `https` scheme, right-stripped path, query, params and
fragment dropped). -/
def normalizeFromParse (p : ParseResultM) : PyStr :=
  urlunparseM "https".toList p.netloc
    (if p.path = [] then [] else rstripSlash p.path) [] [] []

/-- Characters that end the path component (start of fragment or
query). -/
def notHashQuery (c : Char) : Bool := ! (decide (c = '#') || decide (c = '?'))

/-- A concrete stored session used to instantiate hypotheses of the
store theorems. -/
def sampleSession : StoredSession :=
  { session_id := "session1".toList
    sdk_session_id := some "sdk-session-abc".toList
    project_path := "/proj".toList
    backend_type := "claude-agent-sdk".toList
    permission_mode := some "plan".toList
    status := "inactive".toList
    title := "Untitled".toList
    created_at := 0
    last_activity := 71
    page_url := some "https://example.com/app".toList
    base_url := some "https://example.com/app".toList
    tab_id := some "tab-123".toList }

/-! # Theorems

Helper lemmas about the dict model, then the claims. -/

theorem alistHas_alistSet {α : Type} (l : List (PyStr × α)) (k : PyStr) (v : α) :
    alistHas (alistSet l k v) k = true := by
  induction l with
  | nil => simp [alistSet, alistHas]
  | cons hd tl ih =>
    obtain ⟨k₀, v₀⟩ := hd
    by_cases h : k₀ = k
    · simp [alistSet, h, alistHas]
    · simp only [alistSet, if_neg h, alistHas, List.any_cons]
      simp only [alistHas] at ih
      simp [ih, h]

theorem alistHas_alistPop {α : Type} (l : List (PyStr × α)) (k : PyStr) :
    alistHas (alistPop l k) k = false := by
  induction l with
  | nil => simp [alistPop, alistHas]
  | cons hd tl ih =>
    obtain ⟨k₀, v₀⟩ := hd
    by_cases h : k₀ = k
    · simp [alistPop, alistHas, h, ih]
    · simp only [alistPop, alistHas] at ih ⊢
      simp [List.filter_cons, h, ih]

theorem find?_alistSet {α : Type} (l : List (PyStr × α)) (k : PyStr) (v : α) :
    (alistSet l k v).find? (fun p => p.1 = k) = some (k, v) := by
  induction l with
  | nil => simp [alistSet, List.find?]
  | cons hd tl ih =>
    obtain ⟨k₀, v₀⟩ := hd
    by_cases h : k₀ = k
    · simp [alistSet, h, List.find?]
    · simp [alistSet, if_neg h, List.find?, h, ih]

theorem alistPop_alistSet_fresh {α : Type} (l : List (PyStr × α)) (k : PyStr) (v : α)
    (h : alistHas l k = false) : alistPop (alistSet l k v) k = l := by
  induction l with
  | nil => simp [alistSet, alistPop]
  | cons hd tl ih =>
    obtain ⟨k₀, v₀⟩ := hd
    simp only [alistHas, List.any_cons, Bool.or_eq_false_iff] at h
    obtain ⟨h₁, h₂⟩ := h
    have hne : ¬ k₀ = k := by simpa using h₁
    simp only [alistSet, if_neg hne, alistPop, List.filter_cons]
    simp only [alistHas] at ih
    have hrec := ih h₂
    simp only [alistPop, decide_not] at hrec
    simp [h₁, hrec]

/-! ## C1: cancel_stream idempotence behaviour -/

/-- Claim C1 as stated is false: with no intervening `cleanup_stream`,
the second `cancel_stream` on a registered stream also returns true
(the stream is still a key of `_streams`; cancelling only sets its
event).  Concretely, for a stream created as `"s1"`, cancelling twice
returns true both times, contradicting the claimed true-then-false. -/
theorem cancel_stream_twice_counterexample :
    (cancel_stream (create_stream StreamController.empty "s1".toList 0) "s1".toList).2
      = true ∧
    (cancel_stream
      (cancel_stream (create_stream StreamController.empty "s1".toList 0) "s1".toList).1
      "s1".toList).2 = true := by
  constructor <;> rfl

/-- Claim C1, amended: `cancel_stream` returns true exactly while the
stream id is registered — after `create_stream` it returns true, and it
keeps returning true on repeated calls (cancellation is a latch, not a
removal); it returns false for an id that was never created, and false
after `cleanup_stream`. -/
theorem cancel_stream_registered_semantics (s : StreamController) (stream_id : PyStr)
    (now : Int) :
    (cancel_stream (create_stream s stream_id now) stream_id).2 = true ∧
    (cancel_stream
      (cancel_stream (create_stream s stream_id now) stream_id).1 stream_id).2 = true ∧
    (∀ s₀ : StreamController,
      (cancel_stream (cleanup_stream s₀ stream_id) stream_id).2 = false) ∧
    (cancel_stream StreamController.empty stream_id).2 = false := by
  refine ⟨?_, ?_, ?_, ?_⟩
  · simp [cancel_stream, create_stream, alistHas_alistSet]
  · have h1 : alistHas (alistSet s.streams stream_id false) stream_id = true :=
      alistHas_alistSet _ _ _
    simp only [cancel_stream, create_stream, h1, if_pos]
    simp [alistHas_alistSet]
  · intro s₀
    simp [cancel_stream, cleanup_stream, alistHas_alistPop]
  · simp [cancel_stream, StreamController.empty, alistHas]

/-! ## C4: create_stream on an existing id -/

/-- Claim C4 as stated is false: `create_stream` does not fail when the
stream id is already registered; it silently replaces the existing
stream state and cancel signal.  Concretely, creating `"a"`, cancelling
it (state `"cancelling"`, event set) and creating `"a"` again yields a
stream in state `"streaming"` whose cancel signal is cleared. -/
theorem create_stream_replaces_counterexample :
    get_state
      (create_stream
        (cancel_stream (create_stream StreamController.empty "a".toList 0) "a".toList).1
        "a".toList 1) "a".toList = some "streaming".toList ∧
    is_cancelled
      (create_stream
        (cancel_stream (create_stream StreamController.empty "a".toList 0) "a".toList).1
        "a".toList 1) "a".toList = false := by
  constructor <;> rfl

/-- Claim C4, amended: `create_stream` always registers the stream in
`streaming` state with an unset cancel signal; when `stream_id` is
already registered it silently replaces the existing stream state and
cancel signal rather than failing. -/
theorem create_stream_always_registers (s : StreamController) (stream_id : PyStr)
    (now : Int) :
    get_state (create_stream s stream_id now) stream_id = some "streaming".toList ∧
    is_cancelled (create_stream s stream_id now) stream_id = false ∧
    alistHas (create_stream s stream_id now).streams stream_id = true := by
  refine ⟨?_, ?_, ?_⟩
  · simp [get_state, create_stream, find?_alistSet]
  · simp [is_cancelled, create_stream, find?_alistSet]
  · simp [create_stream, alistHas_alistSet]

/-! ## C8: resume window boundary -/

theorem maxByLastActivity_mem_aux (l : SessionTable) (acc : Option StoredSession)
    (r : StoredSession)
    (h : l.foldl (fun acc r =>
      match acc with
      | none => some r
      | some b => if r.last_activity > b.last_activity then some r else some b) acc
        = some r) :
    r ∈ l ∨ acc = some r := by
  induction l generalizing acc with
  | nil => exact Or.inr h
  | cons x xs ih =>
    simp only [List.foldl_cons] at h
    rcases ih _ h with hmem | hacc
    · exact Or.inl (List.mem_cons_of_mem _ hmem)
    · match acc, hacc with
      | none, hacc =>
        simp only [Option.some.injEq] at hacc
        exact Or.inl (hacc ▸ List.mem_cons_self _ _)
      | some b, hacc =>
        by_cases hlt : x.last_activity > b.last_activity
        · simp only [hlt, if_pos, Option.some.injEq] at hacc
          exact Or.inl (hacc ▸ List.mem_cons_self _ _)
        · simp only [hlt, if_neg, ite_false] at hacc
          exact Or.inr hacc

theorem maxByLastActivity_mem (l : SessionTable) (r : StoredSession)
    (h : maxByLastActivity l = some r) : r ∈ l := by
  rcases maxByLastActivity_mem_aux l none r h with hmem | hacc
  · exact hmem
  · cases hacc

/-- Claim C8: `find_resumable_session` never returns a session whose
`last_activity` is one minute past the window (the SQL filter requires
`last_activity > now - max_age_minutes` strictly), and it does return a
session exactly one minute inside the window when that session matches
the base URL, has status active or inactive and a non-null
`sdk_session_id`. -/
theorem find_resumable_session_window_boundary
    (rows : SessionTable) (r r_in : StoredSession) (burl : PyStr)
    (now max_age_minutes : Int)
    (hfound : find_resumable_session rows burl now max_age_minutes = some r)
    (hurl : r_in.base_url = some burl)
    (hstatus : r_in.status = "active".toList ∨ r_in.status = "inactive".toList)
    (hsdk : r_in.sdk_session_id.isSome = true)
    (hage : r_in.last_activity = now - max_age_minutes + 1) :
    r.last_activity ≠ now - max_age_minutes - 1 ∧
    find_resumable_session [r_in] burl now max_age_minutes = some r_in := by
  constructor
  · have hmem := maxByLastActivity_mem _ _ hfound
    have hrow := (List.mem_filter.mp hmem).2
    simp only [resumableRow, Bool.and_eq_true, decide_eq_true_eq] at hrow
    intro heq
    omega
  · have hrow : resumableRow burl (now - max_age_minutes) r_in = true := by
      simp only [resumableRow, Bool.and_eq_true, decide_eq_true_eq, Bool.or_eq_true]
      refine ⟨⟨⟨hurl, ?_⟩, by omega⟩, hsdk⟩
      rcases hstatus with h | h <;> simp [h]
    simp [find_resumable_session, maxByLastActivity, hrow]

/-- Witness for C8 at a concrete store: with `now = 100` and a
30-minute window, `sampleSession` (`last_activity = 71 = 100 - 30 + 1`)
is returned, and its `last_activity` is not `69 = 100 - 30 - 1`. -/
theorem find_resumable_session_window_boundary_witness :
    sampleSession.last_activity ≠ (100 : Int) - 30 - 1 ∧
    find_resumable_session [sampleSession] "https://example.com/app".toList 100 30
      = some sampleSession :=
  find_resumable_session_window_boundary [sampleSession] sampleSession sampleSession
    "https://example.com/app".toList 100 30 (by decide) (by decide)
    (Or.inr (by decide)) (by decide) (by decide)

/-! ## C9: save_session upsert never nulls sdk_session_id -/

/-- Claim C9 as stated is false in one detail: `created_at` is a
supplied field of `save_session` but the `ON CONFLICT` update does not
set it.  Updating an existing row (stored `created_at = 0`, stored
`sdk_session_id = "sdk-session-abc"`) with `created_at = 5` and
`sdk_session_id = None` keeps both the stored `sdk_session_id` and the
stored `created_at`, while e.g. `status` is updated. -/
theorem save_session_counterexample :
    (save_session [sampleSession] "session1".toList
      { sdk_session_id := none
        project_path := "/proj".toList
        backend_type := "claude-agent-sdk".toList
        permission_mode := some "plan".toList
        created_at := some 5
        status := "active".toList
        page_url := none
        base_url := none
        tab_id := none } 90).map
        (fun r => (r.created_at, r.sdk_session_id, r.status))
      = [((0 : Int), some "sdk-session-abc".toList, "active".toList)] := by
  decide

/-- Claim C9, amended: `save_session` is an upsert that never
overwrites a stored non-null `sdk_session_id` with null: updating an
existing row with `sdk_session_id = None` leaves the stored id
unchanged, and updates the other supplied fields except `created_at`
(which is only written on insert). -/
theorem save_session_never_nulls_sdk
    (rows : SessionTable) (sid : PyStr) (a : SaveSessionArgs) (now : Int)
    (r : StoredSession) (v : PyStr)
    (hmem : r ∈ rows) (hsid : r.session_id = sid)
    (hsdk : r.sdk_session_id = some v) (hnone : a.sdk_session_id = none) :
    { r with
      project_path := a.project_path
      backend_type := a.backend_type
      permission_mode := a.permission_mode
      status := a.status
      last_activity := now
      page_url := a.page_url
      base_url := a.base_url
      tab_id := a.tab_id } ∈ save_session rows sid a now := by
  have hany : rows.any (fun r => r.session_id = sid) = true :=
    List.any_eq_true.mpr ⟨r, hmem, by simp [hsid]⟩
  simp only [save_session, hany, if_pos]
  have himg := List.mem_map_of_mem (fun r' =>
    if r'.session_id = sid then
      { r' with
        sdk_session_id := match a.sdk_session_id with
          | some v => some v
          | none => r'.sdk_session_id
        project_path := a.project_path
        backend_type := a.backend_type
        permission_mode := a.permission_mode
        status := a.status
        last_activity := now
        page_url := a.page_url
        base_url := a.base_url
        tab_id := a.tab_id }
    else r') hmem
  simpa [hsid, hnone] using himg

/-- Witness for C9: updating `sampleSession` with null `sdk_session_id`
and fresh metadata yields the merged row with the old id kept. -/
theorem save_session_never_nulls_sdk_witness :
    { sampleSession with
      project_path := "/proj2".toList
      backend_type := "claude-agent-sdk".toList
      permission_mode := some "default".toList
      status := "active".toList
      last_activity := (90 : Int)
      page_url := none
      base_url := none
      tab_id := none } ∈
      save_session [sampleSession] "session1".toList
        { sdk_session_id := none
          project_path := "/proj2".toList
          backend_type := "claude-agent-sdk".toList
          permission_mode := some "default".toList
          created_at := some 5
          status := "active".toList
          page_url := none
          base_url := none
          tab_id := none } 90 :=
  save_session_never_nulls_sdk [sampleSession] "session1".toList _ 90 sampleSession
    "sdk-session-abc".toList (by simp) (by decide) (by decide) (by decide)

/-! ## C2: auto-resume decision in create_session -/

/-- Claim C2 describes the intended auto-resume decision, and that
decision is what session_manager.py spells out and test_auto_resume.py
asserts — but the shipped code cannot reach it: the guard reads
`settings.AUTO_RESUME_ENABLED`, and config.py declares no such field,
so every `create_session` call with `auto_resume=True` raises
`AttributeError` (first conjunct).  The remaining conjuncts prove the
claim against `create_session_resume_spec`, the same code with the two
missing settings supplied: when another tab has an active established
session for the base URL within the window, the new session gets no
`sdk_session_id`; otherwise a stored active-or-inactive session with a
non-null (and nonempty) `sdk_session_id` in the window is resumed. -/
theorem create_session_auto_resume_decision :
    (∀ (store : Option SessionTable) (now : Int) (sdk page tab : Option PyStr),
      create_session_resume store now sdk page tab true
        = .error (.attributeError "AUTO_RESUME_ENABLED".toList)) ∧
    (∀ (rows : SessionTable) (now max_age_minutes : Int) (purl tid : PyStr)
       (nrm : PyStr → PyStr),
      purl ≠ [] → tid ≠ [] →
      has_other_active_tabs rows (nrm purl) tid now max_age_minutes = true →
      create_session_resume_spec (some rows) now none (some purl) (some tid)
        true true max_age_minutes nrm
        = { backend_resume_session_id := none, resumed := false }) ∧
    (∀ (rows : SessionTable) (now max_age_minutes : Int) (purl tid : PyStr)
       (nrm : PyStr → PyStr) (r : StoredSession) (v : PyStr),
      purl ≠ [] → tid ≠ [] →
      has_other_active_tabs rows (nrm purl) tid now max_age_minutes = false →
      find_resumable_session rows (nrm purl) now max_age_minutes = some r →
      r.sdk_session_id = some v → v ≠ [] →
      create_session_resume_spec (some rows) now none (some purl) (some tid)
        true true max_age_minutes nrm
        = { backend_resume_session_id := some v, resumed := true }) := by
  refine ⟨?_, ?_, ?_⟩
  · intro store now sdk page tab
    unfold create_session_resume
    rw [if_pos rfl, if_neg (by decide)]
  · intro rows now max_age purl tid nrm hpurl htid hother
    simp [create_session_resume_spec, pyTruthy, hpurl, htid, hother, pyTruthyOpt,
      List.isEmpty_iff]
  · intro rows now max_age purl tid nrm r v hpurl htid hother hfind hsdk hv
    simp [create_session_resume_spec, pyTruthy, hpurl, htid, hother, hfind, hsdk,
      pyTruthyOpt, hv, List.isEmpty_iff]

/-- Witness for C2 at concrete inputs: a store whose only row is an
active established session of tab `tab-123` suppresses resume for
`tab-456`; with the row inactive instead, `tab-456` resumes
`sdk-session-abc`; and the shipped `create_session` raises
`AttributeError` on the same inputs. -/
theorem create_session_auto_resume_decision_witness :
    create_session_resume (some [sampleSession]) 100 none
      (some "https://example.com/app".toList) (some "tab-456".toList) true
      = .error (.attributeError "AUTO_RESUME_ENABLED".toList) ∧
    create_session_resume_spec (some [{ sampleSession with status := "active".toList }])
      100 none (some "https://example.com/app".toList) (some "tab-456".toList)
      true true 30 (fun _ => "https://example.com/app".toList)
      = { backend_resume_session_id := none, resumed := false } ∧
    create_session_resume_spec (some [sampleSession]) 100 none
      (some "https://example.com/app".toList) (some "tab-456".toList)
      true true 30 (fun _ => "https://example.com/app".toList)
      = { backend_resume_session_id := some "sdk-session-abc".toList, resumed := true } :=
  ⟨create_session_auto_resume_decision.1 (some [sampleSession]) 100 none
      (some "https://example.com/app".toList) (some "tab-456".toList),
   create_session_auto_resume_decision.2.1 [{ sampleSession with status := "active".toList }]
      100 30 "https://example.com/app".toList "tab-456".toList
      (fun _ => "https://example.com/app".toList) (by decide) (by decide) (by decide),
   create_session_auto_resume_decision.2.2 [sampleSession] 100 30
      "https://example.com/app".toList "tab-456".toList
      (fun _ => "https://example.com/app".toList) sampleSession
      "sdk-session-abc".toList (by decide) (by decide) (by decide) (by decide)
      (by decide) (by decide)⟩

/-! ## C6: permission timeout and missing UI channel -/

/-- Claim C6: a tool-permission request with no resolution inside the
60-second wait resolves to `Deny` with the timeout reason and the
waiter is released exactly once — the pending entry is removed, so a
decision arriving after the timeout is a no-op; and with no WebSocket
send callback the request resolves immediately to `Deny` with the
no-UI-connection reason, leaving the manager untouched (and, the model
being total, without raising). -/
theorem permission_timeout_and_no_ui :
    (∀ (send_error : Option PyStr) (m : PermissionManager)
       (request_id tool_name : PyStr) (input_data : List (PyStr × PyStr))
       (outcome : WaitOutcome),
      request_permission_from_ui false send_error m request_id tool_name input_data
        outcome = (.deny "No UI connection available".toList, m, none)) ∧
    (∀ (m : PermissionManager) (request_id tool_name : PyStr)
       (input_data : List (PyStr × PyStr)),
      alistHas m request_id = false →
      request_permission_from_ui true none m request_id tool_name input_data
        .timedOut
        = (.deny "Permission request timed out (60 seconds)".toList, m,
           some { request_id := request_id
                  request_type := "tool_approval".toList
                  tool_name := tool_name
                  timeout_seconds := PERMISSION_TIMEOUT_SECONDS }) ∧
      (∀ response : PermissionResponse,
        resolve_request m request_id response = m)) := by
  constructor
  · intro send_error m request_id tool_name input_data outcome
    simp [request_permission_from_ui]
  · intro m request_id tool_name input_data hfresh
    constructor
    · simp only [request_permission_from_ui, Bool.not_true, Bool.false_eq_true,
        if_neg, ite_false]
      simp [create_request, cleanup_request, alistPop_alistSet_fresh m request_id _ hfresh]
    · intro response
      simp [resolve_request, hfresh]

/-- Witness for C6: a concrete timed-out request on an empty manager,
and a concrete no-UI denial. -/
theorem permission_timeout_and_no_ui_witness :
    request_permission_from_ui false none [] "req-1".toList "Bash".toList []
      .timedOut = (.deny "No UI connection available".toList, [], none) ∧
    request_permission_from_ui true none [] "req-1".toList "Bash".toList []
      .timedOut
      = (.deny "Permission request timed out (60 seconds)".toList, [],
         some { request_id := "req-1".toList
                request_type := "tool_approval".toList
                tool_name := "Bash".toList
                timeout_seconds := PERMISSION_TIMEOUT_SECONDS }) :=
  ⟨permission_timeout_and_no_ui.1 none [] "req-1".toList "Bash".toList [] .timedOut,
   (permission_timeout_and_no_ui.2 [] "req-1".toList "Bash".toList [] (by decide)).1⟩

/-! ## C10: overlong messages

The error classifier sniffs keywords in the lower-cased exception text;
the length-validation text is fixed words around a decimal number, and
a keyword with no digit characters cannot straddle a nonempty digit
run, so the classification is always `internal`. -/

theorem pyIn_true_iff (p l : PyStr) : pyIn p l = true ↔ ∃ s t, l = s ++ (p ++ t) := by
  induction l with
  | nil =>
    simp only [pyIn, List.isEmpty_iff]
    constructor
    · rintro rfl
      exact ⟨[], [], rfl⟩
    · rintro ⟨s, t, h⟩
      have hlen := congrArg List.length h
      simp only [List.length_nil, List.length_append] at hlen
      have : p.length = 0 := by omega
      exact List.length_eq_zero.mp this
  | cons c rest ih =>
    simp only [pyIn, Bool.or_eq_true, ih, List.isPrefixOf_iff_prefix]
    constructor
    · rintro (hpre | ⟨s, t, rfl⟩)
      · obtain ⟨t, ht⟩ := hpre
        exact ⟨[], t, by simp [← ht]⟩
      · exact ⟨c :: s, t, rfl⟩
    · rintro ⟨s, t, heq⟩
      match s, heq with
      | [], heq =>
        left
        exact ⟨t, by simpa using heq.symm⟩
      | x :: s', heq =>
        right
        simp only [List.cons_append, List.cons.injEq] at heq
        exact ⟨s', t, heq.2⟩

theorem no_digit_pyIn (p a mid b : PyStr) (hp : p ≠ [])
    (hpd : ∀ c ∈ p, c.isDigit = false) (hmd : ∀ c ∈ mid, c.isDigit = true)
    (hmne : mid ≠ []) (ha : pyIn p a = false) (hb : pyIn p b = false) :
    pyIn p (a ++ mid ++ b) = false := by
  by_contra hcon
  rw [Bool.not_eq_false, pyIn_true_iff] at hcon
  obtain ⟨s, t, heq⟩ := hcon
  have hlen := congrArg List.length heq
  simp only [List.length_append] at hlen
  have hppos : 0 < p.length := List.length_pos.mpr hp
  have hmpos : 0 < mid.length := List.length_pos.mpr hmne
  by_cases h1 : s.length + p.length ≤ a.length
  · -- the occurrence lies inside `a`
    have htk := congrArg (List.take (s.length + p.length)) heq
    rw [List.take_append_of_le_length
          (show s.length + p.length ≤ (a ++ mid).length by simp; omega),
        List.take_append_of_le_length h1] at htk
    have htk2 : (s ++ (p ++ t)).take (s.length + p.length) = s ++ p := by
      rw [List.take_append]
      congr 1
      exact List.take_left p t
    rw [htk2] at htk
    have : pyIn p a = true := by
      rw [pyIn_true_iff]
      exact ⟨s, a.drop (s.length + p.length), by
        rw [← List.append_assoc, ← htk, List.take_append_drop]⟩
    rw [ha] at this
    cases this
  · by_cases h2 : a.length + mid.length ≤ s.length
    · -- the occurrence lies inside `b`
      have hdp := congrArg (List.drop (a.length + mid.length)) heq
      have hleft : (a ++ mid ++ b).drop (a.length + mid.length) = b := by
        rw [show a ++ mid ++ b = (a ++ mid) ++ b from by simp,
            show a.length + mid.length = (a ++ mid).length from by simp,
            List.drop_left]
      rw [hleft, List.drop_append_of_le_length h2] at hdp
      have : pyIn p b = true := by
        rw [pyIn_true_iff]
        exact ⟨s.drop (a.length + mid.length), t, hdp⟩
      rw [hb] at this
      cases this
    · -- the occurrence overlaps the digit run: contradiction at index j
      push_neg at h1 h2
      have hj1 : s.length ≤ max s.length a.length := le_max_left _ _
      have hj2 : a.length ≤ max s.length a.length := le_max_right _ _
      have hj3 : max s.length a.length < s.length + p.length := max_lt (by omega) h1
      have hj4 : max s.length a.length < a.length + mid.length := max_lt h2 (by omega)
      set j := max s.length a.length with hjdef
      have hjlen : j < (a ++ mid ++ b).length := by
        simp only [List.length_append]
        omega
      have hjlen2 : j < (s ++ (p ++ t)).length := by
        simp only [List.length_append]
        omega
      have hjm : j - a.length < mid.length := by omega
      have hjp : j - s.length < p.length := by omega
      have e0 : (a ++ mid ++ b)[j] = (s ++ (p ++ t))[j] :=
        List.getElem_of_eq heq hjlen
      have e1 : (a ++ mid ++ b)[j] = mid[j - a.length] := by
        rw [List.getElem_append_left (show j < (a ++ mid).length by simp; omega)]
        rw [List.getElem_append_right (by omega)]
      have e2 : (s ++ (p ++ t))[j] = p[j - s.length] := by
        rw [List.getElem_append_right hj1]
        rw [List.getElem_append_left (by omega)]
      have d1 : (mid[j - a.length]).isDigit = true :=
        hmd _ (List.getElem_mem (by omega))
      have d2 : (p[j - s.length]).isDigit = false :=
        hpd _ (List.getElem_mem (by omega))
      rw [e1] at e0
      rw [e2] at e0
      rw [e0] at d1
      rw [d1] at d2
      cases d2

theorem pyDigitChar_isDigit (d : Nat) : (pyDigitChar d).isDigit = true := by
  unfold pyDigitChar
  split <;> decide

theorem pyDigitChar_toLower (d : Nat) : Char.toLower (pyDigitChar d) = pyDigitChar d := by
  unfold pyDigitChar
  split <;> decide

theorem decimalDigitsAux_digits (fuel : Nat) :
    ∀ n, ∀ c ∈ decimalDigitsAux fuel n, c.isDigit = true ∧ Char.toLower c = c := by
  induction fuel with
  | zero => intro n c hc; simp [decimalDigitsAux] at hc
  | succ m ih =>
    intro n c hc
    rw [decimalDigitsAux] at hc
    by_cases h : n = 0
    · simp [h] at hc
    · simp only [h, if_neg, ite_false, List.mem_cons] at hc
      rcases hc with rfl | hc
      · exact ⟨pyDigitChar_isDigit _, pyDigitChar_toLower _⟩
      · exact ih (n / 10) c hc

theorem pyStrNat_digits (n : Nat) :
    ∀ c ∈ pyStrNat n, c.isDigit = true ∧ Char.toLower c = c := by
  intro c hc
  unfold pyStrNat at hc
  by_cases h : n = 0
  · simp [h] at hc
    simp [hc]
  · simp only [h, if_neg, ite_false, List.mem_reverse] at hc
    exact decimalDigitsAux_digits n n c hc

theorem pyStrNat_ne_nil (n : Nat) : pyStrNat n ≠ [] := by
  unfold pyStrNat
  by_cases h : n = 0
  · simp [h]
  · simp only [h, if_neg, ite_false, ne_eq, List.reverse_eq_nil_iff]
    match n, h with
    | m + 1, _ =>
      rw [decimalDigitsAux]
      simp

theorem map_toLower_pyStrNat (n : Nat) :
    List.map Char.toLower (pyStrNat n) = pyStrNat n := by
  conv_rhs => rw [← List.map_id (pyStrNat n)]
  exact List.map_congr_left (fun c hc => (pyStrNat_digits n c hc).2)

theorem classify_error_message_too_long (n : Nat) :
    classify_error (messageTooLongText n) = "internal".toList := by
  have hlow : pyLower (messageTooLongText n)
      = "message too long (".toList ++ pyStrNat n ++
        " chars). maximum allowed: 100000 chars".toList := by
    unfold messageTooLongText pyLower
    rw [List.map_append, List.map_append, map_toLower_pyStrNat]
    rw [show List.map Char.toLower "Message too long (".toList
          = "message too long (".toList from by decide]
    rw [show List.map Char.toLower " chars). Maximum allowed: 100000 chars".toList
          = " chars). maximum allowed: 100000 chars".toList from by decide]
  have hkw : ∀ kw : PyStr, kw ≠ [] → (∀ c ∈ kw, c.isDigit = false) →
      pyIn kw "message too long (".toList = false →
      pyIn kw " chars). maximum allowed: 100000 chars".toList = false →
      pyIn kw (pyLower (messageTooLongText n)) = false := by
    intro kw h1 h2 h3 h4
    rw [hlow]
    exact no_digit_pyIn kw _ _ _ h1 h2 (fun c hc => (pyStrNat_digits n c hc).1)
      (pyStrNat_ne_nil n) h3 h4
  have k1 := hkw "auth".toList (by decide) (by decide) (by decide) (by decide)
  have k2 := hkw "credential".toList (by decide) (by decide) (by decide) (by decide)
  have k3 := hkw "permission".toList (by decide) (by decide) (by decide) (by decide)
  have k4 := hkw "rate".toList (by decide) (by decide) (by decide) (by decide)
  have k5 := hkw "limit".toList (by decide) (by decide) (by decide) (by decide)
  have k6 := hkw "timeout".toList (by decide) (by decide) (by decide) (by decide)
  unfold classify_error
  rw [k1, k2, k3, k4, k5, k6]
  simp

/-- Claim C10: a message longer than `MAX_MESSAGE_LENGTH = 100000`
characters makes `handle_chat` yield exactly one event, an error with
code `internal` — the `ValueError` is raised before the `started`
control event and before the SDK is queried (the yielded events do not
depend on `events`), and its text contains none of the classifier
keywords, so it classifies as `internal`. -/
theorem handle_chat_overlong_message (st : BackendState) (message : PyStr)
    (cancelFrom : Option Nat) (events : List SDKMessage)
    (h : message.length > MAX_MESSAGE_LENGTH) :
    handle_chat st message cancelFrom events
      = [.errorMessage "internal".toList
          ("An unexpected error occurred: ".toList ++ messageTooLongText message.length)] := by
  unfold handle_chat validate_message_length
  rw [if_pos h]
  simp only []
  rw [classify_error_message_too_long]
  unfold get_error_message
  rw [if_neg (by decide), if_neg (by decide), if_neg (by decide), if_neg (by decide),
      if_pos rfl]

/-- Witness for C10: a 100001-character message yields only the
`internal` error event. -/
theorem handle_chat_overlong_message_witness :
    (List.replicate 100001 'a').length > MAX_MESSAGE_LENGTH ∧
    handle_chat ⟨false⟩ (List.replicate 100001 'a') none []
      = [.errorMessage "internal".toList
          ("An unexpected error occurred: ".toList ++ messageTooLongText 100001)] := by
  have hl : (List.replicate 100001 'a').length = 100001 := List.length_replicate _ _
  have hgt : (List.replicate 100001 'a').length > MAX_MESSAGE_LENGTH := by
    rw [hl]; decide
  refine ⟨hgt, ?_⟩
  have hmain := handle_chat_overlong_message ⟨false⟩ (List.replicate 100001 'a') none [] hgt
  rw [hl] at hmain
  exact hmain

/-! ## C3 and C5: terminal events and cooperative cancellation -/

/-- Events yielded for assistant content blocks never match a predicate
that is false on non-terminal chunks and on tool-activity events. -/
theorem processBlocks_countP (P : WsMessage → Bool)
    (hchunk : ∀ t, P (.responseChunk t false) = false)
    (htool : ∀ i n s is os, P (.toolActivity i n s is os) = false) :
    ∀ (blocks : List SDKBlock) (tc : Nat),
      (processBlocks tc blocks).1.countP P = 0 := by
  intro blocks
  induction blocks with
  | nil => intro tc; simp [processBlocks]
  | cons blk rest ih =>
    intro tc
    match blk with
    | .textBlock t =>
      rw [processBlocks]
      by_cases h : t = []
      · simp only [h, if_pos]
        exact ih tc
      · simp only [h, if_neg, ite_false, List.countP_cons, hchunk]
        simp [ih tc]
    | .toolUseBlock id name input =>
      rw [processBlocks]
      by_cases h : id = [] ∨ name = [] ∨ input = []
      · simp only [if_pos h]
        exact ih tc
      · simp only [if_neg h, List.countP_cons, htool]
        simp [ih (tc + 1)]
    | .otherBlock =>
      rw [processBlocks]
      exact ih tc

/-- With no cancellation and no `ResultMessage` in `body`, the loop
processes `body` into a block of events that contains no `completed`
control event, no `done` chunk, no error event and no `cancelled`
control event, and then continues with `rest`. -/
theorem processMessages_no_result_decomp (body : List SDKMessage)
    (hbody : ∀ m ∈ body, isResultMessage m = false) :
    ∀ (rest : List SDKMessage) (i tc : Nat) (st : BackendState),
      ∃ (ys : List WsMessage) (i₂ tc₂ : Nat) (st₂ : BackendState),
        processMessages none i tc st (body ++ rest)
          = ys ++ processMessages none i₂ tc₂ st₂ rest ∧
        ys.countP isCompletedControl = 0 ∧
        ys.countP isDoneChunk = 0 ∧
        (∀ code, ys.countP (isErrorWithCode code) = 0) ∧
        ys.countP isCancelledControl = 0 := by
  induction body with
  | nil =>
    intro rest i tc st
    exact ⟨[], i, tc, st, by simp, by simp, by simp, by simp, by simp⟩
  | cons m body ih =>
    intro rest i tc st
    have hm : isResultMessage m = false := hbody m (List.mem_cons_self _ _)
    have hbody2 : ∀ m₀ ∈ body, isResultMessage m₀ = false :=
      fun m₀ hm₀ => hbody m₀ (List.mem_cons_of_mem _ hm₀)
    have hnc : ¬ cancelSetAt none i = true := by simp [cancelSetAt]
    match m, hm with
    | .assistantMessage blocks, _ =>
      obtain ⟨ys, i₂, tc₂, st₂, heq, h1, h2, h3, h4⟩ :=
        ih hbody2 rest (i + 1) (processBlocks tc blocks).2 st
      refine ⟨(processBlocks tc blocks).1 ++ ys, i₂, tc₂, st₂, ?_, ?_, ?_, ?_, ?_⟩
      · rw [List.cons_append, processMessages.eq_def]
        simp only []
        rw [if_neg hnc, heq, List.append_assoc]
      · simp [List.countP_append, h1,
          processBlocks_countP isCompletedControl (fun _ => rfl)
            (fun _ _ _ _ _ => rfl) blocks tc]
      · simp [List.countP_append, h2,
          processBlocks_countP isDoneChunk (fun _ => rfl)
            (fun _ _ _ _ _ => rfl) blocks tc]
      · intro code
        simp [List.countP_append, h3 code,
          processBlocks_countP (isErrorWithCode code) (fun _ => rfl)
            (fun _ _ _ _ _ => rfl) blocks tc]
      · simp [List.countP_append, h4,
          processBlocks_countP isCancelledControl (fun _ => rfl)
            (fun _ _ _ _ _ => rfl) blocks tc]
    | .toolResultMessage tool_use_id is_error content, _ =>
      obtain ⟨ys, i₂, tc₂, st₂, heq, h1, h2, h3, h4⟩ := ih hbody2 rest (i + 1) tc st
      refine ⟨.toolActivity (tool_use_id.getD "unknown".toList) []
          (if is_error then "failed".toList else "completed".toList)
          none (summarize_tool_output content) :: ys, i₂, tc₂, st₂, ?_, ?_, ?_, ?_, ?_⟩
      · rw [List.cons_append, processMessages.eq_def]
        simp only []
        rw [if_neg hnc, heq]
        simp
      · simp only [List.countP_cons]
        rw [h1]
        by_cases he : is_error = true <;> simp [he, isCompletedControl]
      · simp [List.countP_cons, h2, isDoneChunk]
      · intro code
        simp [List.countP_cons, h3 code, isErrorWithCode]
      · simp only [List.countP_cons]
        rw [h4]
        by_cases he : is_error = true <;> simp [he, isCancelledControl]
    | .systemMessage subtype data_session_id, _ =>
      by_cases hsub : subtype = some "init".toList
      · match data_session_id with
        | some sid =>
          by_cases hsid : ¬ sid = [] ∧ ¬ st.has_established_session
          · obtain ⟨ys, i₂, tc₂, st₂, heq, h1, h2, h3, h4⟩ :=
              ih hbody2 rest (i + 1) tc { st with has_established_session := true }
            refine ⟨.sessionEstablished sid :: ys, i₂, tc₂, st₂, ?_, ?_, ?_, ?_, ?_⟩
            · rw [List.cons_append, processMessages.eq_def]
              simp only []
              rw [if_neg hnc, if_pos hsub, if_pos hsid, heq]
              simp
            · simp [List.countP_cons, h1, isCompletedControl]
            · simp [List.countP_cons, h2, isDoneChunk]
            · intro code
              simp [List.countP_cons, h3 code, isErrorWithCode]
            · simp [List.countP_cons, h4, isCancelledControl]
          · obtain ⟨ys, i₂, tc₂, st₂, heq, h1, h2, h3, h4⟩ := ih hbody2 rest (i + 1) tc st
            refine ⟨ys, i₂, tc₂, st₂, ?_, h1, h2, h3, h4⟩
            rw [List.cons_append, processMessages.eq_def]
            simp only []
            rw [if_neg hnc, if_pos hsub, if_neg hsid, heq]
        | none =>
          obtain ⟨ys, i₂, tc₂, st₂, heq, h1, h2, h3, h4⟩ := ih hbody2 rest (i + 1) tc st
          refine ⟨ys, i₂, tc₂, st₂, ?_, h1, h2, h3, h4⟩
          rw [List.cons_append, processMessages.eq_def]
          simp only []
          rw [if_neg hnc, if_pos hsub, heq]
      · obtain ⟨ys, i₂, tc₂, st₂, heq, h1, h2, h3, h4⟩ := ih hbody2 rest (i + 1) tc st
        refine ⟨ys, i₂, tc₂, st₂, ?_, h1, h2, h3, h4⟩
        rw [List.cons_append, processMessages.eq_def]
        simp only []
        rw [if_neg hnc, if_neg hsub, heq]
    | .otherMessage, _ =>
      obtain ⟨ys, i₂, tc₂, st₂, heq, h1, h2, h3, h4⟩ := ih hbody2 rest (i + 1) tc st
      refine ⟨ys, i₂, tc₂, st₂, ?_, h1, h2, h3, h4⟩
      rw [List.cons_append, processMessages.eq_def]
      simp only []
      rw [if_neg hnc, heq]

/-- Claim C3: in a turn whose SDK stream is a result-free body followed
by one terminal `ResultMessage`, a successful result yields exactly one
`done=true` response chunk and exactly one `completed` control event,
while an error result yields no `completed` control event and exactly
one error event with code `execution_failed`. -/
theorem handle_chat_terminal_event_policy (st : BackendState) (message : PyStr)
    (body : List SDKMessage) (is_error : Bool) (subtype : PyStr)
    (hlen : message.length ≤ MAX_MESSAGE_LENGTH)
    (hbody : ∀ m ∈ body, isResultMessage m = false) :
    (is_error = false →
      (handle_chat st message none
        (body ++ [.resultMessage is_error subtype])).countP isCompletedControl = 1 ∧
      (handle_chat st message none
        (body ++ [.resultMessage is_error subtype])).countP isDoneChunk = 1) ∧
    (is_error = true →
      (handle_chat st message none
        (body ++ [.resultMessage is_error subtype])).countP isCompletedControl = 0 ∧
      (handle_chat st message none
        (body ++ [.resultMessage is_error subtype])).countP
          (isErrorWithCode "execution_failed".toList) = 1) := by
  have hok : validate_message_length message = .ok () := by
    unfold validate_message_length
    rw [if_neg (by omega)]
  obtain ⟨ys, i₂, tc₂, st₂, heq, h1, h2, h3, h4⟩ :=
    processMessages_no_result_decomp body hbody [.resultMessage is_error subtype] 0 0 st
  have hout : handle_chat st message none (body ++ [.resultMessage is_error subtype])
      = .streamControl "started".toList none none ::
        (ys ++ processMessages none i₂ tc₂ st₂ [.resultMessage is_error subtype]) := by
    unfold handle_chat
    rw [hok]
    rw [heq]
  constructor
  · intro herr
    subst herr
    rw [hout, processMessages]
    simp only [cancelSetAt, Bool.false_eq_true, if_neg, ite_false, processMessages]
    constructor
    · simp [List.countP_cons, List.countP_append, h1, isCompletedControl,
        isDoneChunk]
    · simp [List.countP_cons, List.countP_append, h2, isCompletedControl,
        isDoneChunk]
  · intro herr
    subst herr
    rw [hout, processMessages]
    simp only [cancelSetAt, if_pos]
    constructor
    · simp [List.countP_cons, List.countP_append, h1, isCompletedControl]
    · simp [List.countP_cons, List.countP_append, h3, isErrorWithCode]

/-- Witness for C3: a two-message success turn and a failure turn. -/
theorem handle_chat_terminal_event_policy_witness :
    ((handle_chat ⟨false⟩ "hi".toList none
        [.assistantMessage [.textBlock "He".toList],
         .resultMessage false "success".toList]).countP isCompletedControl = 1 ∧
     (handle_chat ⟨false⟩ "hi".toList none
        [.assistantMessage [.textBlock "He".toList],
         .resultMessage false "success".toList]).countP isDoneChunk = 1) ∧
    ((handle_chat ⟨false⟩ "hi".toList none
        [.assistantMessage [.textBlock "He".toList],
         .resultMessage true "error_during_execution".toList]).countP
          isCompletedControl = 0 ∧
     (handle_chat ⟨false⟩ "hi".toList none
        [.assistantMessage [.textBlock "He".toList],
         .resultMessage true "error_during_execution".toList]).countP
          (isErrorWithCode "execution_failed".toList) = 1) :=
  ⟨(handle_chat_terminal_event_policy ⟨false⟩ "hi".toList
      [.assistantMessage [.textBlock "He".toList]] false "success".toList
      (by decide) (by decide)).1 rfl,
   (handle_chat_terminal_event_policy ⟨false⟩ "hi".toList
      [.assistantMessage [.textBlock "He".toList]] true "error_during_execution".toList
      (by decide) (by decide)).2 rfl⟩

theorem isCancelledControl_completed (r : Option PyStr) (t : Option Nat) :
    isCancelledControl (.streamControl "completed".toList r t) = false := by
  simp only [isCancelledControl]
  decide

theorem isCancelledControl_started (r : Option PyStr) (t : Option Nat) :
    isCancelledControl (.streamControl "started".toList r t) = false := by
  simp only [isCancelledControl]
  decide

/-- If the cancel latch becomes set at the check `k` steps ahead and no
error result stops the loop before then, the loop yields its normal
events for the first `k` messages (none of them a `cancelled` control
event), then exactly the `cancelled` control event, and consumes
nothing beyond the `(k+1)`-st message. -/
theorem processMessages_cancel (k : Nat) :
    ∀ (events : List SDKMessage) (i tc : Nat) (st : BackendState),
      k < events.length →
      (∀ m ∈ events.take k, isErrorResultMessage m = false) →
      ∃ ys : List WsMessage,
        processMessages (some (i + k)) i tc st events
          = ys ++ [.streamControl "cancelled".toList (some "user_request".toList) none] ∧
        ys.countP isCancelledControl = 0 ∧
        (∀ extra, processMessages (some (i + k)) i tc st (events.take (k + 1) ++ extra)
          = processMessages (some (i + k)) i tc st events) := by
  induction k with
  | zero =>
    intro events i tc st hk hpre
    match events, hk with
    | e :: rest, _ =>
      have hc : cancelSetAt (some (i + 0)) i = true := by simp [cancelSetAt]
      have hval : ∀ l : List SDKMessage, processMessages (some (i + 0)) i tc st (e :: l)
          = [.streamControl "cancelled".toList (some "user_request".toList) none] := by
        intro l
        rw [processMessages.eq_def]
        simp only []
        rw [if_pos hc]
      refine ⟨[], by rw [hval rest]; simp, by simp, ?_⟩
      intro extra
      rw [show (e :: rest).take (0 + 1) ++ extra = e :: extra from by simp]
      rw [hval extra, hval rest]
  | succ k ih =>
    intro events i tc st hk hpre
    match events with
    | e :: rest =>
    have hklen : k < rest.length := by
      simp only [List.length_cons] at hk
      omega
    have hpre2 : ∀ m ∈ rest.take k, isErrorResultMessage m = false := by
      intro m hm
      exact hpre m (by rw [List.take_succ_cons]; exact List.mem_cons_of_mem _ hm)
    have he : isErrorResultMessage e = false := by
      exact hpre e (by rw [List.take_succ_cons]; exact List.mem_cons_self _ _)
    have hc : ¬ cancelSetAt (some (i + 1 + k)) i = true := by
      simp only [cancelSetAt, decide_eq_true_eq]
      omega
    have hshift : i + (k + 1) = i + 1 + k := by omega
    rw [hshift]
    have htake : ∀ extra : List SDKMessage,
        (e :: rest).take (k + 1 + 1) ++ extra = e :: (rest.take (k + 1) ++ extra) := by
      intro extra
      rw [List.take_succ_cons]
      simp
    match e, he with
    | .resultMessage er sub, he' =>
      have her : er = false := by simpa [isErrorResultMessage] using he'
      subst her
      obtain ⟨ys, hmain, hcount, hext⟩ := ih rest (i + 1) tc st hklen hpre2
      have hval : ∀ l : List SDKMessage, processMessages (some (i + 1 + k)) i tc st
          (.resultMessage false sub :: l)
          = .responseChunk [] true :: .streamControl "completed".toList none (some tc) ::
            processMessages (some (i + 1 + k)) (i + 1) tc st l := by
        intro l
        rw [processMessages.eq_def]
        simp only []
        rw [if_neg hc, if_neg (by decide)]
      refine ⟨.responseChunk [] true ::
        .streamControl "completed".toList none (some tc) :: ys, ?_, ?_, ?_⟩
      · rw [hval rest, hmain]
        simp
      · simp [List.countP_cons, hcount, isCancelledControl_completed, isCancelledControl]
      · intro extra
        rw [htake extra, hval (rest.take (k + 1) ++ extra), hval rest, hext extra]
    | .assistantMessage blocks, _ =>
      obtain ⟨ys, hmain, hcount, hext⟩ :=
        ih rest (i + 1) (processBlocks tc blocks).2 st hklen hpre2
      have hval : ∀ l : List SDKMessage, processMessages (some (i + 1 + k)) i tc st
          (.assistantMessage blocks :: l)
          = (processBlocks tc blocks).1 ++
            processMessages (some (i + 1 + k)) (i + 1) (processBlocks tc blocks).2 st l := by
        intro l
        rw [processMessages.eq_def]
        simp only []
        rw [if_neg hc]
      refine ⟨(processBlocks tc blocks).1 ++ ys, ?_, ?_, ?_⟩
      · rw [hval rest, hmain]
        simp
      · simp [List.countP_append, hcount,
          processBlocks_countP isCancelledControl (fun _ => rfl)
            (fun _ _ _ _ _ => rfl) blocks tc]
      · intro extra
        rw [htake extra, hval (rest.take (k + 1) ++ extra), hval rest, hext extra]
    | .toolResultMessage tool_use_id is_error content, _ =>
      obtain ⟨ys, hmain, hcount, hext⟩ := ih rest (i + 1) tc st hklen hpre2
      have hval : ∀ l : List SDKMessage, processMessages (some (i + 1 + k)) i tc st
          (.toolResultMessage tool_use_id is_error content :: l)
          = .toolActivity (tool_use_id.getD "unknown".toList) []
              (if is_error then "failed".toList else "completed".toList)
              none (summarize_tool_output content) ::
            processMessages (some (i + 1 + k)) (i + 1) tc st l := by
        intro l
        rw [processMessages.eq_def]
        simp only []
        rw [if_neg hc]
      refine ⟨.toolActivity (tool_use_id.getD "unknown".toList) []
          (if is_error then "failed".toList else "completed".toList)
          none (summarize_tool_output content) :: ys, ?_, ?_, ?_⟩
      · rw [hval rest, hmain]
        simp
      · simp only [List.countP_cons]
        rw [hcount]
        by_cases hie : is_error = true <;> simp [hie, isCancelledControl]
      · intro extra
        rw [htake extra, hval (rest.take (k + 1) ++ extra), hval rest, hext extra]
    | .systemMessage subtype data_session_id, _ =>
      by_cases hsub : subtype = some "init".toList
      · match data_session_id with
        | some sid =>
          by_cases hsid : ¬ sid = [] ∧ ¬ st.has_established_session
          · obtain ⟨ys, hmain, hcount, hext⟩ :=
              ih rest (i + 1) tc { st with has_established_session := true } hklen hpre2
            have hval : ∀ l : List SDKMessage, processMessages (some (i + 1 + k)) i tc st
                (.systemMessage subtype (some sid) :: l)
                = .sessionEstablished sid ::
                  processMessages (some (i + 1 + k)) (i + 1) tc
                    { st with has_established_session := true } l := by
              intro l
              rw [processMessages.eq_def]
              simp only []
              rw [if_neg hc, if_pos hsub, if_pos hsid]
            refine ⟨.sessionEstablished sid :: ys, ?_, ?_, ?_⟩
            · rw [hval rest, hmain]
              simp
            · simp [List.countP_cons, hcount, isCancelledControl]
            · intro extra
              rw [htake extra, hval (rest.take (k + 1) ++ extra), hval rest, hext extra]
          · obtain ⟨ys, hmain, hcount, hext⟩ := ih rest (i + 1) tc st hklen hpre2
            have hval : ∀ l : List SDKMessage, processMessages (some (i + 1 + k)) i tc st
                (.systemMessage subtype (some sid) :: l)
                = processMessages (some (i + 1 + k)) (i + 1) tc st l := by
              intro l
              rw [processMessages.eq_def]
              simp only []
              rw [if_neg hc, if_pos hsub, if_neg hsid]
            refine ⟨ys, ?_, hcount, ?_⟩
            · rw [hval rest, hmain]
            · intro extra
              rw [htake extra, hval (rest.take (k + 1) ++ extra), hval rest, hext extra]
        | none =>
          obtain ⟨ys, hmain, hcount, hext⟩ := ih rest (i + 1) tc st hklen hpre2
          have hval : ∀ l : List SDKMessage, processMessages (some (i + 1 + k)) i tc st
              (.systemMessage subtype none :: l)
              = processMessages (some (i + 1 + k)) (i + 1) tc st l := by
            intro l
            rw [processMessages.eq_def]
            simp only []
            rw [if_neg hc, if_pos hsub]
          refine ⟨ys, ?_, hcount, ?_⟩
          · rw [hval rest, hmain]
          · intro extra
            rw [htake extra, hval (rest.take (k + 1) ++ extra), hval rest, hext extra]
      · obtain ⟨ys, hmain, hcount, hext⟩ := ih rest (i + 1) tc st hklen hpre2
        have hval : ∀ l : List SDKMessage, processMessages (some (i + 1 + k)) i tc st
            (.systemMessage subtype data_session_id :: l)
            = processMessages (some (i + 1 + k)) (i + 1) tc st l := by
          intro l
          rw [processMessages.eq_def]
          simp only []
          rw [if_neg hc, if_neg hsub]
        refine ⟨ys, ?_, hcount, ?_⟩
        · rw [hval rest, hmain]
        · intro extra
          rw [htake extra, hval (rest.take (k + 1) ++ extra), hval rest, hext extra]
    | .otherMessage, _ =>
      obtain ⟨ys, hmain, hcount, hext⟩ := ih rest (i + 1) tc st hklen hpre2
      have hval : ∀ l : List SDKMessage, processMessages (some (i + 1 + k)) i tc st
          (.otherMessage :: l)
          = processMessages (some (i + 1 + k)) (i + 1) tc st l := by
        intro l
        rw [processMessages.eq_def]
        simp only []
        rw [if_neg hc]
      refine ⟨ys, ?_, hcount, ?_⟩
      · rw [hval rest, hmain]
      · intro extra
        rw [htake extra, hval (rest.take (k + 1) ++ extra), hval rest, hext extra]

/-- Claim C5: once the cancel latch is set (observed from the check
before the `k`-th backend message, with no earlier error result ending
the turn), the turn yields exactly one `cancelled` stream-control event
with reason `user_request`, that event is the last event of the turn,
and the backend stream is not consumed past the message at which the
cancellation was observed (the output is unchanged under replacing
everything after that message). -/
theorem handle_chat_cooperative_cancellation (st : BackendState) (message : PyStr)
    (events : List SDKMessage) (k : Nat)
    (hlen : message.length ≤ MAX_MESSAGE_LENGTH)
    (hk : k < events.length)
    (hpre : ∀ m ∈ events.take k, isErrorResultMessage m = false) :
    (handle_chat st message (some k) events).countP isCancelledControl = 1 ∧
    (handle_chat st message (some k) events).getLast?
      = some (.streamControl "cancelled".toList (some "user_request".toList) none) ∧
    (∀ extra, handle_chat st message (some k) (events.take (k + 1) ++ extra)
      = handle_chat st message (some k) events) := by
  have hok : validate_message_length message = .ok () := by
    unfold validate_message_length
    rw [if_neg (by omega)]
  obtain ⟨ys, hmain, hcount, hext⟩ := processMessages_cancel k events 0 0 st hk hpre
  rw [Nat.zero_add] at hmain hext
  have hout : handle_chat st message (some k) events
      = .streamControl "started".toList none none ::
        (ys ++ [.streamControl "cancelled".toList (some "user_request".toList) none]) := by
    unfold handle_chat
    rw [hok, hmain]
  refine ⟨?_, ?_, ?_⟩
  · rw [hout]
    simp [List.countP_cons, List.countP_append, hcount, isCancelledControl_started,
      isCancelledControl]
  · rw [hout, show (WsMessage.streamControl "started".toList none none ::
      (ys ++ [WsMessage.streamControl "cancelled".toList
        (some "user_request".toList) none]))
      = (WsMessage.streamControl "started".toList none none :: ys) ++
        [WsMessage.streamControl "cancelled".toList (some "user_request".toList) none]
      from by simp]
    exact List.getLast?_concat _
  · intro extra
    unfold handle_chat
    rw [hok, hext extra]

/-- Witness for C5: cancellation observed before the second message of
a three-message stream stops the turn after one `cancelled` event, and
the third message is never consumed. -/
theorem handle_chat_cooperative_cancellation_witness :
    (handle_chat ⟨false⟩ "hi".toList (some 1)
      [.assistantMessage [.textBlock "He".toList], .otherMessage,
       .resultMessage false "success".toList]).countP isCancelledControl = 1 ∧
    (handle_chat ⟨false⟩ "hi".toList (some 1)
      [.assistantMessage [.textBlock "He".toList], .otherMessage,
       .resultMessage false "success".toList]).getLast?
      = some (.streamControl "cancelled".toList (some "user_request".toList) none) ∧
    handle_chat ⟨false⟩ "hi".toList (some 1)
      (([.assistantMessage [.textBlock "He".toList], .otherMessage,
         .resultMessage false "success".toList].take 2) ++ [.otherMessage])
      = handle_chat ⟨false⟩ "hi".toList (some 1)
        [.assistantMessage [.textBlock "He".toList], .otherMessage,
         .resultMessage false "success".toList] := by
  obtain ⟨h1, h2, h3⟩ := handle_chat_cooperative_cancellation ⟨false⟩ "hi".toList
    [.assistantMessage [.textBlock "He".toList], .otherMessage,
     .resultMessage false "success".toList] 1 (by decide) (by decide) (by decide)
  exact ⟨h1, h2, h3 [.otherMessage]⟩

/-! ## C7: URL normalization

List lemmas for the parsing stages, then the stage lemmas, then the
claims. -/

theorem dropWhile_append_stop (p : Char → Bool) (a w : PyStr) (c : Char)
    (hc : p c = false) :
    (a ++ c :: w).dropWhile p = a.dropWhile p ++ c :: w := by
  induction a with
  | nil => simp [List.dropWhile_cons, hc]
  | cons x xs ih =>
    by_cases hx : p x = true
    · simp [List.dropWhile_cons, hx, ih]
    · simp only [Bool.not_eq_true] at hx
      simp [List.dropWhile_cons, hx]

theorem takeWhile_append_stop (p : Char → Bool) (a w : PyStr) (c : Char)
    (hc : p c = false) :
    (a ++ c :: w).takeWhile p = a.takeWhile p := by
  induction a with
  | nil => simp [List.takeWhile_cons, hc]
  | cons x xs ih =>
    by_cases hx : p x = true
    · simp [List.takeWhile_cons, hx, ih]
    · simp only [Bool.not_eq_true] at hx
      simp [List.takeWhile_cons, hx]

theorem takeWhile_append_all (p : Char → Bool) (a b : PyStr)
    (ha : ∀ c ∈ a, p c = true) :
    (a ++ b).takeWhile p = a ++ b.takeWhile p := by
  induction a with
  | nil => simp
  | cons x xs ih =>
    have hx := ha x (List.mem_cons_self _ _)
    rw [List.cons_append, List.takeWhile_cons, if_pos hx,
        ih (fun c hc => ha c (List.mem_cons_of_mem _ hc)), List.cons_append]

theorem dropWhile_append_all (p : Char → Bool) (a b : PyStr)
    (ha : ∀ c ∈ a, p c = true) :
    (a ++ b).dropWhile p = b.dropWhile p := by
  induction a with
  | nil => simp
  | cons x xs ih =>
    have hx := ha x (List.mem_cons_self _ _)
    simp only [List.cons_append, List.dropWhile_cons, hx, if_pos]
    exact ih (fun c hc => ha c (List.mem_cons_of_mem _ hc))

theorem splitFirst_eq_none_iff (c : Char) (l : PyStr) :
    splitFirst c l = none ↔ c ∉ l := by
  induction l with
  | nil => simp [splitFirst]
  | cons x xs ih =>
    rw [splitFirst]
    by_cases hx : x = c
    · simp [hx]
    · rw [if_neg hx]
      match hsp : splitFirst c xs with
      | some (a, b) =>
        have hmem : c ∈ xs := by
          by_contra hnot
          rw [ih.mpr hnot] at hsp
          cases hsp
        simp [List.mem_cons, hmem]
      | none =>
        have hnot : c ∉ xs := ih.mp hsp
        simp only [Option.map_none, List.mem_cons, true_iff]
        intro hor
        rcases hor with h | h
        · exact hx h.symm
        · exact hnot h

theorem splitFirst_eq_some (c : Char) (l a b : PyStr)
    (h : splitFirst c l = some (a, b)) : l = a ++ c :: b ∧ c ∉ a := by
  induction l generalizing a b with
  | nil => simp [splitFirst] at h
  | cons x xs ih =>
    by_cases hx : x = c
    · rw [splitFirst, if_pos hx] at h
      simp only [Option.some.injEq, Prod.mk.injEq] at h
      obtain ⟨rfl, rfl⟩ := h
      simp [hx]
    · rw [splitFirst, if_neg hx] at h
      match hsp : splitFirst c xs with
      | some (a₀, b₀) =>
        rw [hsp] at h
        simp only [Option.map_some, Option.some.injEq, Prod.mk.injEq] at h
        obtain ⟨rfl, rfl⟩ := h
        obtain ⟨heq, hnot⟩ := ih a₀ b₀ hsp
        constructor
        · simp [heq]
        · simp only [List.mem_cons, not_or]
          exact ⟨fun hxc => hx hxc.symm, hnot⟩
      | none => rw [hsp] at h; cases h

theorem splitFirst_append_some (c : Char) (a z x y : PyStr)
    (h : splitFirst c a = some (x, y)) :
    splitFirst c (a ++ z) = some (x, y ++ z) := by
  induction a generalizing x y with
  | nil => simp [splitFirst] at h
  | cons hd tl ih =>
    by_cases hx : hd = c
    · rw [splitFirst, if_pos hx] at h
      simp only [Option.some.injEq, Prod.mk.injEq] at h
      obtain ⟨rfl, rfl⟩ := h
      simp [splitFirst, hx]
    · rw [splitFirst, if_neg hx] at h
      match hsp : splitFirst c tl with
      | some (a₀, b₀) =>
        rw [hsp] at h
        simp only [Option.map_some, Option.some.injEq, Prod.mk.injEq] at h
        obtain ⟨rfl, rfl⟩ := h
        rw [List.cons_append, splitFirst, if_neg hx, ih a₀ b₀ hsp]
      | none => rw [hsp] at h; cases h

theorem splitFirst_append_none (c : Char) (a z : PyStr)
    (h : splitFirst c a = none) :
    splitFirst c (a ++ z) = (splitFirst c z).map (fun p => (a ++ p.1, p.2)) := by
  induction a with
  | nil =>
    simp only [List.nil_append]
    match hsp : splitFirst c z with
    | some (x, y) => simp
    | none => simp
  | cons hd tl ih =>
    by_cases hx : hd = c
    · rw [splitFirst, if_pos hx] at h
      cases h
    · rw [splitFirst, if_neg hx] at h
      match hsp : splitFirst c tl with
      | some _ => rw [hsp] at h; cases h
      | none =>
        rw [List.cons_append, splitFirst, if_neg hx, ih hsp]
        match splitFirst c z with
        | some (x, y) => rfl
        | none => rfl

theorem splitFirst_prefix (c : Char) (pre rest : PyStr) (h : c ∉ pre) :
    splitFirst c (pre ++ c :: rest) = some (pre, rest) := by
  rw [splitFirst_append_none c pre (c :: rest) ((splitFirst_eq_none_iff c pre).mpr h)]
  rw [splitFirst, if_pos rfl]
  simp

theorem head?_dropWhile_not (p : Char → Bool) (l : PyStr) (a : Char)
    (h : (l.dropWhile p).head? = some a) : p a = false := by
  induction l with
  | nil => simp [List.dropWhile] at h
  | cons x xs ih =>
    by_cases hx : p x = true
    · rw [List.dropWhile_cons, if_pos hx] at h
      exact ih h
    · rw [List.dropWhile_cons, if_neg hx] at h
      simp only [List.head?_cons, Option.some.injEq] at h
      subst h
      simpa using hx

theorem rstripSlash_getLast? (l : PyStr) : (rstripSlash l).getLast? ≠ some '/' := by
  unfold rstripSlash
  rw [← List.head?_reverse]
  rw [List.reverse_reverse]
  intro h
  have := head?_dropWhile_not _ _ _ h
  simp at this

theorem rstripSlash_of_getLast? (l : PyStr) (h : l.getLast? ≠ some '/') :
    rstripSlash l = l := by
  unfold rstripSlash
  have hrev : l.reverse.head? ≠ some '/' := by
    rw [List.head?_reverse]
    exact h
  match hl : l.reverse with
  | [] =>
    have : l = [] := by simpa using congrArg List.reverse hl
    simp [this]
  | x :: xs =>
    rw [hl] at hrev
    simp only [List.head?_cons, ne_eq, Option.some.injEq] at hrev
    rw [List.dropWhile_cons, if_neg (by simpa using hrev)]
    rw [← hl, List.reverse_reverse]

theorem rstripSlash_append_slash (l : PyStr) :
    rstripSlash (l ++ ['/']) = rstripSlash l := by
  unfold rstripSlash
  rw [List.reverse_concat]
  rw [List.dropWhile_cons, if_pos (by simp)]

theorem mem_rstripSlash (l : PyStr) (c : Char) (h : c ∈ rstripSlash l) : c ∈ l := by
  unfold rstripSlash at h
  rw [List.mem_reverse] at h
  have := (List.dropWhile_sublist _).mem h
  simpa using this

theorem urlparseM_decomp (env : UrllibEnv) (url : PyStr) :
    urlparseM env url
      = urlparsePostScheme env (splitScheme (stripPrep url)).1
          (splitScheme (stripPrep url)).2 := rfl

theorem normalize_eq_map (env : UrllibEnv) (url : PyStr) (h : ¬ url = []) :
    normalize_url_for_matching env url
      = (urlparsePostScheme env (splitScheme (stripPrep url)).1
          (splitScheme (stripPrep url)).2).map normalizeFromParse := by
  unfold normalize_url_for_matching
  rw [if_neg h, urlparseM_decomp]
  cases urlparsePostScheme env (splitScheme (stripPrep url)).1
      (splitScheme (stripPrep url)).2 with
  | error e => rfl
  | ok p => rfl

/-- The path of `urlsplit` is the prefix of the post-netloc remainder
up to the first `#` or `?`. -/
theorem pathPart_eq (x : PyStr) :
    (querySplit (fragmentSplit x).1).1 = x.takeWhile notHashQuery := by
  unfold fragmentSplit
  match hf : splitFirst '#' x with
  | none =>
    have hnotin := (splitFirst_eq_none_iff _ _).mp hf
    simp only []
    unfold querySplit
    match hq : splitFirst '?' x with
    | none =>
      have hq' := (splitFirst_eq_none_iff _ _).mp hq
      simp only []
      refine (List.takeWhile_eq_self_iff.mpr ?_).symm
      intro c hc
      simp only [notHashQuery, Bool.not_eq_true', Bool.or_eq_false_iff,
        decide_eq_false_iff_not]
      exact ⟨fun h => hnotin (h ▸ hc), fun h => hq' (h ▸ hc)⟩
    | some (a, b) =>
      obtain ⟨heq, hqa⟩ := splitFirst_eq_some _ _ _ _ hq
      subst heq
      simp only []
      rw [takeWhile_append_stop _ _ _ _ (by simp [notHashQuery])]
      refine (List.takeWhile_eq_self_iff.mpr ?_).symm
      intro c hc
      simp only [notHashQuery, Bool.not_eq_true', Bool.or_eq_false_iff,
        decide_eq_false_iff_not]
      refine ⟨fun h => hnotin ?_, fun h => hqa (h ▸ hc)⟩
      subst h
      exact List.mem_append_left _ hc
  | some (u, f) =>
    obtain ⟨heq, hfu⟩ := splitFirst_eq_some _ _ _ _ hf
    subst heq
    simp only []
    unfold querySplit
    match hq : splitFirst '?' u with
    | none =>
      have hq' := (splitFirst_eq_none_iff _ _).mp hq
      simp only []
      rw [takeWhile_append_stop _ _ _ _ (by simp [notHashQuery])]
      refine (List.takeWhile_eq_self_iff.mpr ?_).symm
      intro c hc
      simp only [notHashQuery, Bool.not_eq_true', Bool.or_eq_false_iff,
        decide_eq_false_iff_not]
      exact ⟨fun h => hfu (h ▸ hc), fun h => hq' (h ▸ hc)⟩
    | some (a, b) =>
      obtain ⟨hequ, hqa⟩ := splitFirst_eq_some _ _ _ _ hq
      subst hequ
      simp only []
      rw [List.append_assoc, List.cons_append]
      rw [takeWhile_append_stop _ _ _ _ (by simp [notHashQuery])]
      refine (List.takeWhile_eq_self_iff.mpr ?_).symm
      intro c hc
      simp only [notHashQuery, Bool.not_eq_true', Bool.or_eq_false_iff,
        decide_eq_false_iff_not]
      refine ⟨fun h => hfu ?_, fun h => hqa (h ▸ hc)⟩
      subst h
      exact List.mem_append_left _ hc

theorem splitScheme_append_of_some (u z pre post : PyStr)
    (hsp : splitFirst ':' u = some (pre, post)) :
    splitScheme (u ++ z) = ((splitScheme u).1, (splitScheme u).2 ++ z) := by
  have hu : u = pre ++ ':' :: post := (splitFirst_eq_some _ _ _ _ hsp).1
  unfold splitScheme
  rw [hsp, splitFirst_append_some ':' u z pre post hsp]
  have hhead : (u ++ z).head? = u.head? := by
    subst hu
    match pre with
    | [] => rfl
    | x :: pre' => rfl
  simp only [hhead]
  by_cases hcond : ((! pre.isEmpty) &&
      (match u.head? with | some c => isAsciiAlpha c | none => false) &&
      pre.all (fun c => schemeChars.contains c)) = true
  · rw [if_pos hcond, if_pos hcond]
  · rw [if_neg hcond, if_neg hcond]

theorem splitScheme_append_no_colon (u z : PyStr) (hz : ':' ∉ z) :
    splitScheme (u ++ z) = ((splitScheme u).1, (splitScheme u).2 ++ z) := by
  match hsp : splitFirst ':' u with
  | some (pre, post) => exact splitScheme_append_of_some u z pre post hsp
  | none =>
    unfold splitScheme
    rw [hsp, splitFirst_append_none ':' u z hsp, (splitFirst_eq_none_iff ':' z).mpr hz]
    simp

theorem splitScheme_append_qf (u w : PyStr) (c : Char) (hc : c = '?' ∨ c = '#') :
    splitScheme (u ++ c :: w) = ((splitScheme u).1, (splitScheme u).2 ++ c :: w) := by
  have hcc : ¬ c = ':' := by rcases hc with rfl | rfl <;> decide
  match hsp : splitFirst ':' u with
  | some (pre, post) => exact splitScheme_append_of_some u (c :: w) pre post hsp
  | none =>
    by_cases hw : ':' ∈ w
    · match hw2 : splitFirst ':' w with
      | none => exact absurd hw ((splitFirst_eq_none_iff ':' w).mp hw2)
      | some (a, b) =>
        have hall : (u ++ c :: a).all (fun x => schemeChars.contains x) = false := by
          rw [List.all_eq_false]
          refine ⟨c, List.mem_append_right _ (List.mem_cons_self _ _), ?_⟩
          rcases hc with rfl | rfl <;> decide
        have hres : splitFirst ':' (u ++ c :: w) = some (u ++ c :: a, b) := by
          rw [splitFirst_append_none ':' u (c :: w) hsp, splitFirst, if_neg hcc, hw2]
          rfl
        unfold splitScheme
        rw [hres, hsp]
        simp only []
        rw [if_neg (by rw [hall]; simp)]
    · exact splitScheme_append_no_colon u (c :: w) (by
        simp only [List.mem_cons, not_or]
        exact ⟨fun h => hcc h.symm, hw⟩)

theorem take2_ne_slashes (l : PyStr) (c : Char) (hc : ¬ c = '/') :
    ¬ (c :: l).take 2 = ['/', '/'] := by
  intro h
  rw [List.take_succ_cons] at h
  injection h with h1 h2
  exact hc h1

theorem netlocSplit_append_qf (r w : PyStr) (c : Char) (hc : c = '?' ∨ c = '#') :
    netlocSplit (r ++ c :: w) = ((netlocSplit r).1, (netlocSplit r).2 ++ c :: w) := by
  have hstop : isNetlocStopChar c = true := by rcases hc with rfl | rfl <;> decide
  have hcs : ¬ c = '/' := by rcases hc with rfl | rfl <;> decide
  unfold netlocSplit
  match r with
  | [] =>
    rw [List.nil_append, if_neg (take2_ne_slashes w c hcs)]
    simp
  | [x] =>
    have h1 : ¬ ([x] ++ c :: w).take 2 = ['/', '/'] := by
      intro h
      simp only [List.cons_append, List.nil_append, List.take_succ_cons,
        List.take_succ_cons, List.take_zero] at h
      injection h with h1 h2
      injection h2 with h3 h4
      exact hcs h3
    have h2 : ¬ ([x] : PyStr).take 2 = ['/', '/'] := by
      intro h
      simp [List.take] at h
    rw [if_neg h1, if_neg h2]
  | x :: y :: r2 =>
    have htake : (x :: y :: r2 ++ c :: w).take 2 = (x :: y :: r2).take 2 := by
      simp [List.take_succ_cons]
    by_cases hxy : (x :: y :: r2).take 2 = ['/', '/']
    · rw [if_pos (htake ▸ hxy), if_pos hxy]
      simp only [List.cons_append, List.drop_succ_cons, List.drop_zero]
      rw [takeWhile_append_stop _ _ _ _ (by simp [hstop]),
          dropWhile_append_stop _ _ _ _ (by simp [hstop])]
    · rw [if_neg (fun h => hxy (htake ▸ h)), if_neg hxy]

theorem contains_false_of_not_mem (l : PyStr) (c : Char) (h : c ∉ l) :
    l.contains c = false := by
  induction l with
  | nil => rfl
  | cons x xs ih =>
    simp only [List.mem_cons, not_or] at h
    simp only [List.contains_cons, Bool.or_eq_false_iff]
    exact ⟨by simpa using h.1, ih h.2⟩

theorem takeWhile_append_of_ne (p : Char → Bool) (a b : PyStr)
    (h : a.takeWhile p ≠ a) : (a ++ b).takeWhile p = a.takeWhile p := by
  induction a with
  | nil => exact absurd rfl h
  | cons x xs ih =>
    by_cases hx : p x
    · rw [List.cons_append, List.takeWhile_cons, if_pos hx,
        List.takeWhile_cons, if_pos hx]
      rw [ih (fun he => h (by rw [List.takeWhile_cons, if_pos hx, he]))]
    · rw [List.cons_append, List.takeWhile_cons,
        if_neg hx, List.takeWhile_cons, if_neg hx]

theorem mem_stripPrep (s : PyStr) (c : Char) (h : c ∈ stripPrep s) : c ∈ s := by
  unfold stripPrep at h
  have h1 := (List.filter_sublist _).mem h
  exact (List.dropWhile_sublist _).mem h1

theorem mem_splitScheme_snd (u : PyStr) (c : Char)
    (h : c ∈ (splitScheme u).2) : c ∈ u := by
  unfold splitScheme at h
  match hsp : splitFirst ':' u with
  | none => rw [hsp] at h; exact h
  | some (pre, post) =>
    rw [hsp] at h
    simp only [] at h
    by_cases hcond : ((! pre.isEmpty) &&
        (match u.head? with | some c => isAsciiAlpha c | none => false) &&
        pre.all (fun c => schemeChars.contains c)) = true
    · rw [if_pos hcond] at h
      have hu : u = pre ++ ':' :: post := (splitFirst_eq_some _ _ _ _ hsp).1
      rw [hu]
      exact List.mem_append_right _ (List.mem_cons_of_mem _ h)
    · rw [if_neg hcond] at h; exact h

theorem mem_netlocSplit_snd (r : PyStr) (c : Char)
    (h : c ∈ (netlocSplit r).2) : c ∈ r := by
  unfold netlocSplit at h
  by_cases h2 : r.take 2 = ['/', '/']
  · rw [if_pos h2] at h
    have h3 := (List.dropWhile_sublist _).mem h
    exact (List.drop_sublist 2 r).mem h3
  · rw [if_neg h2] at h; exact h

theorem stripPrep_append_stop (s w : PyStr) (c : Char)
    (hC0 : isC0ControlOrSpace c = false) (hU : isUnsafeUrlByte c = false) :
    stripPrep (s ++ c :: w)
      = stripPrep s ++ c :: w.filter (fun c => ! isUnsafeUrlByte c) := by
  unfold stripPrep
  rw [dropWhile_append_stop _ _ _ _ hC0, List.filter_append,
    List.filter_cons_of_pos (by simp [hU])]

theorem stripPrep_http (r : PyStr) :
    stripPrep ("http://".toList ++ r)
      = "http://".toList ++ r.filter (fun c => ! isUnsafeUrlByte c) := by
  unfold stripPrep
  rw [show ("http://".toList ++ r) = 'h' :: ("ttp://".toList ++ r) from rfl]
  rw [List.dropWhile_cons, if_neg (by decide)]
  rw [show ('h' :: ("ttp://".toList ++ r)) = "http://".toList ++ r from rfl]
  rw [List.filter_append]
  rfl

theorem stripPrep_https (r : PyStr) :
    stripPrep ("https://".toList ++ r)
      = "https://".toList ++ r.filter (fun c => ! isUnsafeUrlByte c) := by
  unfold stripPrep
  rw [show ("https://".toList ++ r) = 'h' :: ("ttps://".toList ++ r) from rfl]
  rw [List.dropWhile_cons, if_neg (by decide)]
  rw [show ('h' :: ("ttps://".toList ++ r)) = "https://".toList ++ r from rfl]
  rw [List.filter_append]
  rfl

theorem netlocSplit_slashes (r : PyStr) :
    netlocSplit ('/' :: '/' :: r)
      = (r.takeWhile (fun c => ! isNetlocStopChar c),
         r.dropWhile (fun c => ! isNetlocStopChar c)) := by
  unfold netlocSplit
  rw [if_pos (show List.take 2 ('/' :: '/' :: r) = ['/', '/'] from rfl)]
  rfl

theorem netlocSplit_append_slash (r : PyStr) (h : r ≠ ['/']) :
    netlocSplit (r ++ ['/'])
      = ((netlocSplit r).1, (netlocSplit r).2 ++ ['/']) := by
  match r with
  | [] =>
    unfold netlocSplit
    rw [List.nil_append, if_neg (by decide), if_neg (by decide)]
    simp
  | [x] =>
    have hx : ¬ x = '/' := fun hx => h (by rw [hx])
    unfold netlocSplit
    have h1 : ¬ ([x] ++ ['/']).take 2 = ['/', '/'] := by
      intro hh
      simp only [List.cons_append, List.nil_append, List.take_succ_cons,
        List.take_zero] at hh
      injection hh with h1 h2
      exact hx h1
    have h2 : ¬ ([x] : PyStr).take 2 = ['/', '/'] := by
      intro hh
      simp [List.take] at hh
    rw [if_neg h1, if_neg h2]
  | x :: y :: r2 =>
    have htake : (x :: y :: r2 ++ ['/']).take 2 = (x :: y :: r2).take 2 := by
      simp [List.take_succ_cons]
    unfold netlocSplit
    by_cases hxy : (x :: y :: r2).take 2 = ['/', '/']
    · rw [if_pos (htake ▸ hxy), if_pos hxy]
      simp only [List.cons_append, List.drop_succ_cons, List.drop_zero]
      rw [show (r2 ++ ['/']) = r2 ++ '/' :: [] from rfl]
      rw [takeWhile_append_stop _ _ _ _ (by decide),
          dropWhile_append_stop _ _ _ _ (by decide)]
    · rw [if_neg (fun hh => hxy (htake ▸ hh)), if_neg hxy]

theorem splitScheme_http (t : PyStr) :
    splitScheme ('h' :: 't' :: 't' :: 'p' :: ':' :: t) = ("http".toList, t) := rfl

theorem splitScheme_https (t : PyStr) :
    splitScheme ('h' :: 't' :: 't' :: 'p' :: 's' :: ':' :: t)
      = ("https".toList, t) := rfl

theorem urlsplitPostScheme_char (env : UrllibEnv) (sch url2 : PyStr) :
    urlsplitPostScheme env sch url2
      = match checkNetlocBrackets env (netlocSplit url2).1 with
        | .error e => .error e
        | .ok _ =>
          match checknetloc env (netlocSplit url2).1 with
          | .error e => .error e
          | .ok _ => .ok ⟨sch, (netlocSplit url2).1,
              (netlocSplit url2).2.takeWhile notHashQuery,
              (querySplit (fragmentSplit (netlocSplit url2).2).1).2,
              (fragmentSplit (netlocSplit url2).2).2⟩ := by
  simp only [urlsplitPostScheme]
  rw [← pathPart_eq ((netlocSplit url2).2)]
  rfl

theorem urlparse_norm_char (env : UrllibEnv) (sch url2 : PyStr) :
    (urlparsePostScheme env sch url2).map normalizeFromParse
      = match checkNetlocBrackets env (netlocSplit url2).1 with
        | .error e => .error e
        | .ok _ =>
          match checknetloc env (netlocSplit url2).1 with
          | .error e => .error e
          | .ok _ => .ok (
              if uses_params.contains sch ∧
                  ((netlocSplit url2).2.takeWhile notHashQuery).contains ';' then
                urlunparseM "https".toList (netlocSplit url2).1
                  (if (splitparams ((netlocSplit url2).2.takeWhile notHashQuery)).1 = []
                   then []
                   else rstripSlash
                     (splitparams ((netlocSplit url2).2.takeWhile notHashQuery)).1)
                  [] [] []
              else
                urlunparseM "https".toList (netlocSplit url2).1
                  (if (netlocSplit url2).2.takeWhile notHashQuery = [] then []
                   else rstripSlash ((netlocSplit url2).2.takeWhile notHashQuery))
                  [] [] []) := by
  unfold urlparsePostScheme
  rw [urlsplitPostScheme_char]
  cases checkNetlocBrackets env (netlocSplit url2).1 with
  | error e => rfl
  | ok u =>
    cases checknetloc env (netlocSplit url2).1 with
    | error e => rfl
    | ok v =>
      simp only []
      by_cases hp : uses_params.contains sch ∧
          ((netlocSplit url2).2.takeWhile notHashQuery).contains ';'
      · rw [if_pos hp, if_pos hp]
        rfl
      · rw [if_neg hp, if_neg hp]
        rfl

theorem urlparse_norm_qf (env : UrllibEnv) (sch rest w : PyStr) (c : Char)
    (hc : c = '?' ∨ c = '#') :
    (urlparsePostScheme env sch (rest ++ c :: w)).map normalizeFromParse
      = (urlparsePostScheme env sch rest).map normalizeFromParse := by
  have hnHQ : notHashQuery c = false := by rcases hc with rfl | rfl <;> decide
  rw [urlparse_norm_char, urlparse_norm_char, netlocSplit_append_qf rest w c hc]
  simp only []
  rw [takeWhile_append_stop notHashQuery (netlocSplit rest).2 w c hnHQ]

theorem urlparse_norm_scheme (env : UrllibEnv) (sch1 sch2 rest : PyStr)
    (h : uses_params.contains sch1 = uses_params.contains sch2) :
    (urlparsePostScheme env sch1 rest).map normalizeFromParse
      = (urlparsePostScheme env sch2 rest).map normalizeFromParse := by
  rw [urlparse_norm_char, urlparse_norm_char, h]

theorem urlparse_norm_slash (env : UrllibEnv) (sch rest : PyStr)
    (hrest : rest ≠ ['/'])
    (hsemi : ';' ∉ (netlocSplit rest).2.takeWhile notHashQuery) :
    (urlparsePostScheme env sch (rest ++ ['/'])).map normalizeFromParse
      = (urlparsePostScheme env sch rest).map normalizeFromParse := by
  rw [urlparse_norm_char, urlparse_norm_char, netlocSplit_append_slash rest hrest]
  simp only []
  by_cases hall : (netlocSplit rest).2.takeWhile notHashQuery = (netlocSplit rest).2
  · have hmem : ∀ c ∈ (netlocSplit rest).2, notHashQuery c = true :=
      (List.takeWhile_eq_self_iff).mp hall
    have hpath : ((netlocSplit rest).2 ++ ['/']).takeWhile notHashQuery
        = (netlocSplit rest).2.takeWhile notHashQuery ++ ['/'] := by
      rw [takeWhile_append_all _ _ _ hmem, hall]
      rfl
    rw [hpath]
    have hc1 : ((netlocSplit rest).2.takeWhile notHashQuery ++ ['/']).contains ';'
        = false := by
      apply contains_false_of_not_mem
      intro hmem2
      rcases List.mem_append.mp hmem2 with h1 | h1
      · exact hsemi h1
      · simp at h1
    have hc2 : ((netlocSplit rest).2.takeWhile notHashQuery).contains ';' = false :=
      contains_false_of_not_mem _ _ hsemi
    have hnc1 : ¬ (uses_params.contains sch = true ∧
        ((netlocSplit rest).2.takeWhile notHashQuery ++ ['/']).contains ';' = true) :=
      fun hh => by rw [hc1] at hh; exact absurd hh.2 (by simp)
    have hnc2 : ¬ (uses_params.contains sch = true ∧
        ((netlocSplit rest).2.takeWhile notHashQuery).contains ';' = true) :=
      fun hh => by rw [hc2] at hh; exact absurd hh.2 (by simp)
    rw [if_neg hnc1, if_neg hnc2]
    have harg : (if (netlocSplit rest).2.takeWhile notHashQuery ++ ['/'] = [] then []
          else rstripSlash ((netlocSplit rest).2.takeWhile notHashQuery ++ ['/']))
        = (if (netlocSplit rest).2.takeWhile notHashQuery = [] then []
          else rstripSlash ((netlocSplit rest).2.takeWhile notHashQuery)) := by
      by_cases hnil : (netlocSplit rest).2.takeWhile notHashQuery = []
      · rw [hnil]
        decide
      · rw [if_neg (by simp), if_neg hnil, rstripSlash_append_slash]
    rw [harg]
  · rw [takeWhile_append_of_ne _ _ _ hall]

theorem urlparse_norm_slash_special (env : UrllibEnv) (sch : PyStr) :
    (urlparsePostScheme env sch (['/'] ++ ['/'])).map normalizeFromParse
      = (urlparsePostScheme env sch ['/']).map normalizeFromParse := by
  rw [urlparse_norm_char, urlparse_norm_char]
  have h1 : netlocSplit (['/'] ++ ['/']) = ([], []) := by decide
  have h2 : netlocSplit ['/'] = ([], ['/']) := by decide
  rw [h1, h2]
  simp only []
  have hcb : checkNetlocBrackets env [] = .ok () := by
    unfold checkNetlocBrackets
    rw [if_neg (by decide), if_neg (by decide)]
  have hcn : checknetloc env [] = .ok () := by
    unfold checknetloc
    rw [if_pos (by decide)]
  rw [hcb, hcn]
  simp only []
  have hnc1 : ¬ (uses_params.contains sch = true ∧
      (List.takeWhile notHashQuery ([] : PyStr)).contains ';' = true) :=
    fun hh => absurd hh.2 (by decide)
  have hnc2 : ¬ (uses_params.contains sch = true ∧
      (List.takeWhile notHashQuery ['/']).contains ';' = true) :=
    fun hh => absurd hh.2 (by decide)
  rw [if_neg hnc1, if_neg hnc2]
  rfl

theorem normalize_append_qf (env : UrllibEnv) (s w : PyStr) (c : Char)
    (hs : s ≠ []) (hc : c = '?' ∨ c = '#') :
    normalize_url_for_matching env (s ++ c :: w)
      = normalize_url_for_matching env s := by
  have hC0 : isC0ControlOrSpace c = false := by rcases hc with rfl | rfl <;> decide
  have hU : isUnsafeUrlByte c = false := by rcases hc with rfl | rfl <;> decide
  rw [normalize_eq_map env _ (by simp), normalize_eq_map env s hs]
  rw [stripPrep_append_stop s w c hC0 hU]
  rw [splitScheme_append_qf (stripPrep s) _ c hc]
  exact urlparse_norm_qf env _ _ _ c hc

theorem normalize_append_slash (env : UrllibEnv) (s : PyStr)
    (hs : s ≠ []) (hsemi : ';' ∉ s) :
    normalize_url_for_matching env (s ++ ['/'])
      = normalize_url_for_matching env s := by
  rw [normalize_eq_map env _ (by simp), normalize_eq_map env s hs]
  have hstrip : stripPrep (s ++ ['/']) = stripPrep s ++ ['/'] := by
    rw [show (s ++ ['/']) = s ++ '/' :: [] from rfl,
      stripPrep_append_stop s [] '/' (by decide) (by decide)]
    rfl
  rw [hstrip, splitScheme_append_no_colon (stripPrep s) ['/'] (by decide)]
  by_cases hsp : (splitScheme (stripPrep s)).2 = ['/']
  · rw [hsp]
    exact urlparse_norm_slash_special env _
  · apply urlparse_norm_slash env _ _ hsp
    intro hmem
    have h1 := (List.takeWhile_sublist _).mem hmem
    have h2 := mem_netlocSplit_snd _ _ h1
    have h3 := mem_splitScheme_snd _ _ h2
    have h4 := mem_stripPrep _ _ h3
    exact hsemi h4

theorem normalize_http_https (env : UrllibEnv) (r : PyStr) :
    normalize_url_for_matching env ("http://".toList ++ r)
      = normalize_url_for_matching env ("https://".toList ++ r) := by
  rw [normalize_eq_map env _ (by simp), normalize_eq_map env _ (by simp)]
  rw [stripPrep_http, stripPrep_https]
  rw [show ("http://".toList ++ r.filter (fun c => ! isUnsafeUrlByte c))
      = 'h' :: 't' :: 't' :: 'p' :: ':'
          :: ('/' :: '/' :: r.filter (fun c => ! isUnsafeUrlByte c)) from rfl]
  rw [show ("https://".toList ++ r.filter (fun c => ! isUnsafeUrlByte c))
      = 'h' :: 't' :: 't' :: 'p' :: 's' :: ':'
          :: ('/' :: '/' :: r.filter (fun c => ! isUnsafeUrlByte c)) from rfl]
  rw [splitScheme_http, splitScheme_https]
  simp only []
  exact urlparse_norm_scheme env _ _ _ (by decide)

theorem urlunparse_https_shape (nl pfin : PyStr) (hne : nl ≠ [] ∨ pfin = []) :
    urlunparseM "https".toList nl pfin [] [] []
      = "https".toList ++ ':' :: '/' :: '/'
          :: (nl ++ (if pfin ≠ [] ∧ pfin.head? ≠ some '/' then '/' :: pfin
                     else pfin)) := by
  have hC : (nl ≠ [] ∨ ("https".toList ≠ [] ∧
      uses_netloc.contains "https".toList = true ∧
      pfin.take 2 ≠ ['/', '/'])) := by
    rcases hne with h | h
    · exact Or.inl h
    · refine Or.inr ⟨by decide, by decide, ?_⟩
      rw [h]
      decide
  simp only [urlunparseM, urlunsplitM, reduceIte]
  rw [if_pos hC]
  rfl

theorem normalize_https_slashes (env : UrllibEnv) (nl u : PyStr)
    (hcb : checkNetlocBrackets env nl = .ok ())
    (hcn : checknetloc env nl = .ok ())
    (hnlstop : ∀ c ∈ nl, isNetlocStopChar c = false)
    (hnlsafe : ∀ c ∈ nl, isUnsafeUrlByte c = false)
    (husafe : ∀ c ∈ u, isUnsafeUrlByte c = false)
    (huhq : ∀ c ∈ u, notHashQuery c = true)
    (husemi : ';' ∉ u)
    (huh : u = [] ∨ u.head? = some '/')
    (hustrip : rstripSlash u = u)
    (hne2 : nl ≠ [] ∨ u = []) :
    normalize_url_for_matching env
        ("https".toList ++ ':' :: '/' :: '/' :: (nl ++ u))
      = .ok ("https".toList ++ ':' :: '/' :: '/' :: (nl ++ u)) := by
  have hne3 : ("https".toList ++ ':' :: '/' :: '/' :: (nl ++ u)) ≠ [] := by simp
  rw [normalize_eq_map env _ hne3]
  have hstr : stripPrep ("https".toList ++ ':' :: '/' :: '/' :: (nl ++ u))
      = "https".toList ++ ':' :: '/' :: '/' :: (nl ++ u) := by
    unfold stripPrep
    rw [show ("https".toList ++ ':' :: '/' :: '/' :: (nl ++ u))
        = 'h' :: ("ttps".toList ++ ':' :: '/' :: '/' :: (nl ++ u)) from rfl]
    rw [List.dropWhile_cons, if_neg (by decide)]
    rw [show ('h' :: ("ttps".toList ++ ':' :: '/' :: '/' :: (nl ++ u)))
        = "https".toList ++ ':' :: '/' :: '/' :: (nl ++ u) from rfl]
    apply List.filter_eq_self.mpr
    intro c hc
    rcases List.mem_append.mp hc with h1 | h1
    · have hlit : c = 'h' ∨ c = 't' ∨ c = 't' ∨ c = 'p' ∨ c = 's' := by simpa using h1
      rcases hlit with rfl | rfl | rfl | rfl | rfl <;> decide
    · simp only [List.mem_cons] at h1
      rcases h1 with rfl | rfl | rfl | h2
      · decide
      · decide
      · decide
      · rcases List.mem_append.mp h2 with h3 | h3
        · simp [husafe] at h3 ⊢
          simp [hnlsafe c h3]
        · simp [husafe c h3]
  rw [hstr]
  rw [show ("https".toList ++ ':' :: '/' :: '/' :: (nl ++ u))
      = 'h' :: 't' :: 't' :: 'p' :: 's' :: ':' :: ('/' :: '/' :: (nl ++ u)) from rfl]
  rw [splitScheme_https]
  simp only []
  rw [urlparse_norm_char, netlocSplit_slashes]
  simp only []
  have hnl1 : (nl ++ u).takeWhile (fun c => ! isNetlocStopChar c) = nl := by
    rw [takeWhile_append_all _ _ _ (by intro c hc; simp [hnlstop c hc])]
    rcases huh with rfl | hh
    · simp
    · cases u with
      | nil => simp
      | cons c0 t =>
        have hc0 : c0 = '/' := by simpa using hh
        rw [List.takeWhile_cons, if_neg (by rw [hc0]; decide)]
        simp
  have hnl2 : (nl ++ u).dropWhile (fun c => ! isNetlocStopChar c) = u := by
    rw [dropWhile_append_all _ _ _ (by intro c hc; simp [hnlstop c hc])]
    rcases huh with rfl | hh
    · rfl
    · cases u with
      | nil => rfl
      | cons c0 t =>
        have hc0 : c0 = '/' := by simpa using hh
        rw [List.dropWhile_cons, if_neg (by rw [hc0]; decide)]
  rw [hnl1, hnl2, hcb, hcn]
  simp only []
  have hupath : u.takeWhile notHashQuery = u := List.takeWhile_eq_self_iff.mpr huhq
  rw [hupath]
  have hnc : ¬ (uses_params.contains "https".toList = true ∧
      u.contains ';' = true) :=
    fun hh => by
      rw [contains_false_of_not_mem u ';' husemi] at hh
      exact absurd hh.2 (by simp)
  rw [if_neg hnc]
  have hfin : (if u = [] then [] else rstripSlash u) = u := by
    by_cases hun : u = []
    · rw [if_pos hun, hun]
    · rw [if_neg hun, hustrip]
  rw [hfin]
  rw [urlunparse_https_shape nl u hne2]
  have hiu : (if u ≠ [] ∧ u.head? ≠ some '/' then '/' :: u else u) = u := by
    rcases huh with rfl | hh
    · rw [if_neg (fun hx => hx.1 rfl)]
    · rw [if_neg (fun hx => hx.2 hh)]
  rw [hiu]
  rfl

theorem normalize_unparse_fixed (env : UrllibEnv) (nl pfin : PyStr)
    (hcb : checkNetlocBrackets env nl = .ok ())
    (hcn : checknetloc env nl = .ok ())
    (hnlstop : ∀ c ∈ nl, isNetlocStopChar c = false)
    (hnlsafe : ∀ c ∈ nl, isUnsafeUrlByte c = false)
    (hpsafe : ∀ c ∈ pfin, isUnsafeUrlByte c = false)
    (hphq : ∀ c ∈ pfin, notHashQuery c = true)
    (hpsemi : ';' ∉ pfin)
    (hpl : pfin.getLast? ≠ some '/')
    (hne : nl ≠ [] ∨ pfin = []) :
    normalize_url_for_matching env (urlunparseM "https".toList nl pfin [] [] [])
      = .ok (urlunparseM "https".toList nl pfin [] [] []) := by
  rw [urlunparse_https_shape nl pfin hne]
  by_cases hcase : pfin ≠ [] ∧ pfin.head? ≠ some '/'
  · rw [if_pos hcase]
    have hnlne : nl ≠ [] := by
      rcases hne with h | h
      · exact h
      · exact absurd h hcase.1
    apply normalize_https_slashes env nl ('/' :: pfin) hcb hcn hnlstop hnlsafe
    · intro c hc
      rcases List.mem_cons.mp hc with rfl | hc2
      · decide
      · exact hpsafe c hc2
    · intro c hc
      rcases List.mem_cons.mp hc with rfl | hc2
      · decide
      · exact hphq c hc2
    · intro hc
      rcases List.mem_cons.mp hc with h | h
      · exact absurd h (by decide)
      · exact hpsemi h
    · exact Or.inr rfl
    · apply rstripSlash_of_getLast?
      cases pfin with
      | nil => exact absurd rfl hcase.1
      | cons p0 ps =>
        rw [List.getLast?_cons_cons]
        exact hpl
    · exact Or.inl hnlne
  · rw [if_neg hcase]
    have hdisj : pfin = [] ∨ pfin.head? = some '/' := by
      by_cases hp : pfin = []
      · exact Or.inl hp
      · right
        by_contra hh
        exact hcase ⟨hp, hh⟩
    apply normalize_https_slashes env nl pfin hcb hcn hnlstop hnlsafe hpsafe hphq
      hpsemi hdisj
    · exact rstripSlash_of_getLast? pfin hpl
    · exact hne

theorem normalize_idem_https (env : UrllibEnv) (r : PyStr)
    (hsemi : ';' ∉ r)
    (hsafe : ∀ c ∈ r, isUnsafeUrlByte c = false)
    (hhead : r.head? ≠ some '/') :
    (normalize_url_for_matching env ("https://".toList ++ r)).bind
        (normalize_url_for_matching env)
      = normalize_url_for_matching env ("https://".toList ++ r) := by
  have hfr : r.filter (fun c => ! isUnsafeUrlByte c) = r :=
    List.filter_eq_self.mpr (by intro c hc; simp [hsafe c hc])
  have h1 : normalize_url_for_matching env ("https://".toList ++ r)
      = (urlparsePostScheme env "https".toList ('/' :: '/' :: r)).map
          normalizeFromParse := by
    rw [normalize_eq_map env _ (by simp), stripPrep_https, hfr]
    rw [show ("https://".toList ++ r)
        = 'h' :: 't' :: 't' :: 'p' :: 's' :: ':' :: ('/' :: '/' :: r) from rfl]
    rw [splitScheme_https]
  rw [h1, urlparse_norm_char, netlocSplit_slashes]
  simp only []
  cases hcb : checkNetlocBrackets env
      (r.takeWhile (fun c => ! isNetlocStopChar c)) with
  | error e => rfl
  | ok uu =>
    cases hcn : checknetloc env (r.takeWhile (fun c => ! isNetlocStopChar c)) with
    | error e => rfl
    | ok vv =>
      simp only []
      have hpathmem : ∀ c ∈ (r.dropWhile
          (fun c => ! isNetlocStopChar c)).takeWhile notHashQuery, c ∈ r :=
        fun c hc =>
          (List.dropWhile_sublist _).mem ((List.takeWhile_sublist _).mem hc)
      have hnc : ¬ (uses_params.contains "https".toList = true ∧
          ((r.dropWhile (fun c => ! isNetlocStopChar c)).takeWhile
            notHashQuery).contains ';' = true) := fun hh => by
        rw [contains_false_of_not_mem _ ';' (fun hm => hsemi (hpathmem _ hm))] at hh
        exact absurd hh.2 (by simp)
      rw [if_neg hnc]
      apply normalize_unparse_fixed env _ _ hcb hcn
      · intro c hc
        have := List.mem_takeWhile_imp hc
        simpa using this
      · intro c hc
        exact hsafe c ((List.takeWhile_sublist _).mem hc)
      · intro c hc
        by_cases hP : (r.dropWhile (fun c => ! isNetlocStopChar c)).takeWhile
            notHashQuery = []
        · rw [if_pos hP] at hc
          simp at hc
        · rw [if_neg hP] at hc
          exact hsafe c (hpathmem c (mem_rstripSlash _ _ hc))
      · intro c hc
        by_cases hP : (r.dropWhile (fun c => ! isNetlocStopChar c)).takeWhile
            notHashQuery = []
        · rw [if_pos hP] at hc
          simp at hc
        · rw [if_neg hP] at hc
          exact List.mem_takeWhile_imp (mem_rstripSlash _ _ hc)
      · intro hc
        by_cases hP : (r.dropWhile (fun c => ! isNetlocStopChar c)).takeWhile
            notHashQuery = []
        · rw [if_pos hP] at hc
          simp at hc
        · rw [if_neg hP] at hc
          exact hsemi (hpathmem _ (mem_rstripSlash _ _ hc))
      · by_cases hP : (r.dropWhile (fun c => ! isNetlocStopChar c)).takeWhile
            notHashQuery = []
        · rw [if_pos hP]
          simp
        · rw [if_neg hP]
          exact rstripSlash_getLast? _
      · by_cases hnl : r.takeWhile (fun c => ! isNetlocStopChar c) = []
        · right
          have hPnil : (r.dropWhile (fun c => ! isNetlocStopChar c)).takeWhile
              notHashQuery = [] := by
            cases hr : r with
            | nil => rfl
            | cons c0 t =>
              have hstop : (! isNetlocStopChar c0) = false := by
                by_contra hx
                have hx2 : (! isNetlocStopChar c0) = true := by
                  revert hx
                  cases (! isNetlocStopChar c0) <;> simp
                rw [hr, List.takeWhile_cons, if_pos hx2] at hnl
                exact List.cons_ne_nil _ _ hnl
              have hc0 : ¬ c0 = '/' := by
                intro hx
                apply hhead
                rw [hr, hx]
                rfl
              have hs : isNetlocStopChar c0 = true := by simpa using hstop
              have hqf : notHashQuery c0 = false := by
                unfold isNetlocStopChar at hs
                rcases of_decide_eq_true hs with h | h | h
                · exact absurd h hc0
                · rw [h]; decide
                · rw [h]; decide
              rw [List.dropWhile_cons, if_neg (by simp [hstop])]
              rw [List.takeWhile_cons, if_neg (by simp [hqf])]
          rw [if_pos hPnil]
        · exact Or.inl hnl

instance exceptDecidableEq {ε α : Type} [DecidableEq ε] [DecidableEq α] :
    DecidableEq (Except ε α) := fun a b =>
  match a, b with
  | .ok x, .ok y =>
    if h : x = y then .isTrue (by rw [h])
    else .isFalse (fun hh => h (by injection hh))
  | .ok _, .error _ => .isFalse (fun hh => by injection hh)
  | .error _, .ok _ => .isFalse (fun hh => by injection hh)
  | .error e, .error f =>
    if h : e = f then .isTrue (by rw [h])
    else .isFalse (fun hh => h (by injection hh))

/-- C7 (counterexample): as written the claim is false.  A trailing
slash does change the normalized result when the last path segment
carries `;`-parameters (`https://a.com/a;b/` versus `https://a.com/a;b`
normalize differently, because `urlparse` only strips the parameters in
the second case), and `normalize_url_for_matching` is not idempotent in
general: `//////a` normalizes to `https:////a`, which normalizes again
to the different value `https://a`. -/
theorem normalize_url_counterexample :
    (normalize_url_for_matching strictUrllibEnv
          ("https://a.com/a;b".toList ++ ['/'])
        ≠ normalize_url_for_matching strictUrllibEnv "https://a.com/a;b".toList)
    ∧ ((normalize_url_for_matching strictUrllibEnv "//////a".toList).bind
          (normalize_url_for_matching strictUrllibEnv)
        ≠ normalize_url_for_matching strictUrllibEnv "//////a".toList) :=
  ⟨by decide, by decide⟩

/-- C7 (amended): the algebraic properties of
`normalize_url_for_matching` that do hold, for every environment:
appending a query string (`?...`) or a fragment (`#...`) to a nonempty
URL never changes the normalized result; appending a trailing slash to a
nonempty URL without `;` never changes the normalized result; an
`http://` URL and an `https://` URL with the same remainder normalize
identically; normalization is idempotent on `https://` URLs whose
remainder has no `;`, no tab/CR/LF, and does not start with `/`; and the
spec's example holds:
`normalize('https://app.com/page/?tab=1#section') = 'https://app.com/page'`. -/
theorem normalize_url_algebraic_properties :
    (∀ env : UrllibEnv, ∀ s q : PyStr, s ≠ [] →
      normalize_url_for_matching env (s ++ '?' :: q)
        = normalize_url_for_matching env s)
    ∧ (∀ env : UrllibEnv, ∀ s f : PyStr, s ≠ [] →
      normalize_url_for_matching env (s ++ '#' :: f)
        = normalize_url_for_matching env s)
    ∧ (∀ env : UrllibEnv, ∀ s : PyStr, s ≠ [] → ';' ∉ s →
      normalize_url_for_matching env (s ++ ['/'])
        = normalize_url_for_matching env s)
    ∧ (∀ env : UrllibEnv, ∀ r : PyStr,
      normalize_url_for_matching env ("http://".toList ++ r)
        = normalize_url_for_matching env ("https://".toList ++ r))
    ∧ (∀ env : UrllibEnv, ∀ r : PyStr, ';' ∉ r →
      (∀ c ∈ r, isUnsafeUrlByte c = false) → r.head? ≠ some '/' →
      (normalize_url_for_matching env ("https://".toList ++ r)).bind
          (normalize_url_for_matching env)
        = normalize_url_for_matching env ("https://".toList ++ r))
    ∧ normalize_url_for_matching strictUrllibEnv
        "https://app.com/page/?tab=1#section".toList
      = .ok "https://app.com/page".toList :=
  ⟨fun env s q hs => normalize_append_qf env s q '?' hs (Or.inl rfl),
   fun env s f hs => normalize_append_qf env s f '#' hs (Or.inr rfl),
   fun env s hs hsemi => normalize_append_slash env s hs hsemi,
   fun env r => normalize_http_https env r,
   fun env r h1 h2 h3 => normalize_idem_https env r h1 h2 h3,
   by decide⟩

/-- C7 witness: the amended properties instantiated at concrete URLs. -/
theorem normalize_url_algebraic_properties_witness :
    (normalize_url_for_matching strictUrllibEnv
          ("https://a.com/x".toList ++ '?' :: "t=1".toList)
        = normalize_url_for_matching strictUrllibEnv "https://a.com/x".toList)
    ∧ (normalize_url_for_matching strictUrllibEnv
          ("https://a.com/x".toList ++ '#' :: "s1".toList)
        = normalize_url_for_matching strictUrllibEnv "https://a.com/x".toList)
    ∧ (normalize_url_for_matching strictUrllibEnv
          ("https://a.com/x".toList ++ ['/'])
        = normalize_url_for_matching strictUrllibEnv "https://a.com/x".toList)
    ∧ (normalize_url_for_matching strictUrllibEnv
          ("http://".toList ++ "a.com/x".toList)
        = normalize_url_for_matching strictUrllibEnv
            ("https://".toList ++ "a.com/x".toList))
    ∧ ((normalize_url_for_matching strictUrllibEnv
            ("https://".toList ++ "a.com/x".toList)).bind
          (normalize_url_for_matching strictUrllibEnv)
        = normalize_url_for_matching strictUrllibEnv
            ("https://".toList ++ "a.com/x".toList)) :=
  ⟨normalize_url_algebraic_properties.1 strictUrllibEnv _ _ (by decide),
   normalize_url_algebraic_properties.2.1 strictUrllibEnv _ _ (by decide),
   normalize_url_algebraic_properties.2.2.1 strictUrllibEnv _ (by decide) (by decide),
   normalize_url_algebraic_properties.2.2.2.1 strictUrllibEnv _,
   normalize_url_algebraic_properties.2.2.2.2.1 strictUrllibEnv _ (by decide)
     (by decide) (by decide)⟩

end UIChatter
